import Mathlib

/-!
Verification development for the gltf-viewer strategy-camera demo
(src/main.c).  The spatial query engine (ray casts against the loaded
model), the unit agent update, and the selection/control-group subsystem
are embedded shallowly.  External library calls (raylib / raymath:
GetRayCollisionTriangle, GetRayCollisionBox + GetMeshBoundingBox,
Vector3Transform with model.transform, GetMouseRay, GetWorldToScreen,
GetRandomValue) are modelled as oracle parameters; everything written in
main.c itself is translated directly.

Scalars are exact: the spatial query engine is generic over a linear
ordered field (instantiated at ℚ for concrete evaluation and at ℝ inside
the unit update, whose trigonometry needs ℝ).
-/

namespace GltfViewer

/-- 3D vector, mirroring raylib's Vector3. -/
@[ext]
structure Vec3 (K : Type) where
  x : K
  y : K
  z : K
deriving DecidableEq, Repr

/-- A ray: origin plus direction, mirroring raylib's Ray. -/
structure Ray3 (K : Type) where
  position : Vec3 K
  direction : Vec3 K
deriving DecidableEq, Repr

/-- Result of a successful ray-triangle intersection (RayCollision with
hit = true): distance along the ray and the hit point. -/
structure Hit3 (K : Type) where
  distance : K
  point : Vec3 K
deriving DecidableEq, Repr

/-- One mesh of the loaded model: flat vertex-coordinate array, optional
index array (mesh.indices may be NULL), and triangleCount, as in raylib's
Mesh as read by main.c. -/
structure MeshData (K : Type) where
  vertices : List K
  indices : Option (List Nat)
  triangleCount : Nat

/-- The loaded model: a list of meshes (model.transform is folded into
the xform oracle below). -/
structure ModelData (K : Type) where
  meshes : List (MeshData K)

/-- Oracle bundle for the external geometry routines used by main.c:
rayBox models GetMeshBoundingBox + GetRayCollisionBox (some d = hit at
distance d), rayTri models GetRayCollisionTriangle (some h = hit), and
xform models Vector3Transform with the model's transform matrix. -/
structure GeomOracle (K : Type) where
  rayBox : Ray3 K → MeshData K → Option K
  rayTri : Ray3 K → Vec3 K → Vec3 K → Vec3 K → Option (Hit3 K)
  xform : Vec3 K → Vec3 K

/-- UNIT_HEIGHT_OFFSET = 0.2f. -/
def UNIT_HEIGHT_OFFSET {K : Type} [LinearOrderedField K] : K := 1/5

/-- MAX_UNITS = 100. -/
def MAX_UNITS : Nat := 100

section SpatialEngine

variable {K : Type} [LinearOrderedField K]

/-- Read vertex i from the flat vertex array:
(vertices[i*3+0], vertices[i*3+1], vertices[i*3+2]). -/
def getVertex (vs : List K) (i : Nat) : Vec3 K :=
  ⟨vs.getD (i * 3 + 0) 0, vs.getD (i * 3 + 1) 0, vs.getD (i * 3 + 2) 0⟩

/-- Triangle t of a mesh, following the two layouts of main.c: indexed
(vertex indices from mesh.indices[t*3+k]) or non-indexed (consecutive
vertex triples). -/
def meshTriangle (m : MeshData K) (t : Nat) : Vec3 K × Vec3 K × Vec3 K :=
  match m.indices with
  | some idx =>
      (getVertex m.vertices (idx.getD (t * 3 + 0) 0),
       getVertex m.vertices (idx.getD (t * 3 + 1) 0),
       getVertex m.vertices (idx.getD (t * 3 + 2) 0))
  | none =>
      (getVertex m.vertices (t * 3 + 0),
       getVertex m.vertices (t * 3 + 1),
       getVertex m.vertices (t * 3 + 2))

/-- All triangles of a mesh (the loop for t = 0 .. triangleCount-1). -/
def meshTriangles (m : MeshData K) : List (Vec3 K × Vec3 K × Vec3 K) :=
  (List.range m.triangleCount).map (meshTriangle m)

/-- The transformed-triangle collision test against one triangle, as
performed in the inner loops of main.c: transform the three vertices and
call GetRayCollisionTriangle. -/
def triHit (g : GeomOracle K) (ray : Ray3 K) (tri : Vec3 K × Vec3 K × Vec3 K) :
    Option (Hit3 K) :=
  g.rayTri ray (g.xform tri.1) (g.xform tri.2.1) (g.xform tri.2.2)

/-! ### CheckCollisionWithModel (main.c lines 138-219) -/

/-- CheckCollisionWithModel: for each mesh, bounding-box coarse test
(hit and distance below maxDistance), then the triangles of either
layout; true as soon as any triangle hit lies within maxDistance. -/
def checkCollisionWithModel (g : GeomOracle K) (origin direction : Vec3 K)
    (model : ModelData K) (maxDistance : K) : Bool :=
  let ray : Ray3 K := ⟨origin, direction⟩
  model.meshes.any (fun m =>
    match g.rayBox ray m with
    | some d =>
        decide (d < maxDistance) &&
        (meshTriangles m).any (fun tri =>
          match triHit g ray tri with
          | some h => decide (h.distance < maxDistance)
          | none => false)
    | none => false)

/-! ### GetGroundHeight (main.c lines 222-309) -/

/-- Downward ray used by GetGroundHeight: origin 10 above the query
point, direction (0, -1, 0). -/
def groundRay (position : Vec3 K) : Ray3 K :=
  ⟨⟨position.x, position.y + 10, position.z⟩, ⟨0, -1, 0⟩⟩

/-- One triangle step of the GetGroundHeight scan: keep
(closestDistance, groundY), update on a strictly closer hit. -/
def groundScanTri (g : GeomOracle K) (ray : Ray3 K) (acc : K × K)
    (tri : Vec3 K × Vec3 K × Vec3 K) : K × K :=
  match triHit g ray tri with
  | some h => if h.distance < acc.1 then (h.distance, h.point.y) else acc
  | none => acc

/-- One mesh step of the GetGroundHeight scan: bounding-box coarse
rejection (only boxCollision.hit is consulted here), then all triangles. -/
def groundScanMesh (g : GeomOracle K) (ray : Ray3 K) (acc : K × K)
    (m : MeshData K) : K × K :=
  if (g.rayBox ray m).isSome then (meshTriangles m).foldl (groundScanTri g ray) acc
  else acc

/-- GetGroundHeight: scan every mesh keeping the globally nearest
downward hit; default height UNIT_HEIGHT_OFFSET when nothing was hit
(closestDistance still at its 10000 sentinel), otherwise the hit's Y plus
UNIT_HEIGHT_OFFSET. -/
def getGroundHeight (g : GeomOracle K) (model : ModelData K) (position : Vec3 K) : K :=
  let ray := groundRay position
  let s := model.meshes.foldl (groundScanMesh g ray) (10000, 0)
  if 10000 ≤ s.1 then UNIT_HEIGHT_OFFSET else s.2 + UNIT_HEIGHT_OFFSET

/-- The successful triangle hits of one mesh, in scan order. -/
def meshHits (g : GeomOracle K) (ray : Ray3 K) (m : MeshData K) : List (Hit3 K) :=
  (meshTriangles m).filterMap (triHit g ray)

/-- All successful triangle hits of the whole model, in scan order. -/
def modelHits (g : GeomOracle K) (ray : Ray3 K) (model : ModelData K) : List (Hit3 K) :=
  model.meshes.flatMap (meshHits g ray)

/-- The closest-hit tracking fold on a plain hit list. -/
def scanHits (hs : List (Hit3 K)) (acc : K × K) : K × K :=
  hs.foldl (fun a h => if h.distance < a.1 then (h.distance, h.point.y) else a) acc

/-! ### GetGroundPositionFromMouse (main.c lines 312-386)

The camera ray built by GetMouseRay(mousePos, camera) is external; the
embedding receives that ray directly. -/

/-- One triangle step of the GetGroundPositionFromMouse scan: keep
(closestDistance, hitPoint, hitFound). -/
def gpfmScanTri (g : GeomOracle K) (ray : Ray3 K) (acc : K × Vec3 K × Bool)
    (tri : Vec3 K × Vec3 K × Vec3 K) : K × Vec3 K × Bool :=
  match triHit g ray tri with
  | some h => if h.distance < acc.1 then (h.distance, h.point, true) else acc
  | none => acc

/-- One mesh step of the GetGroundPositionFromMouse scan.  Note: after
the bounding-box test, the source only walks triangles when
mesh.indices != NULL — there is no else branch for the non-indexed
layout here, unlike CheckCollisionWithModel and GetGroundHeight. -/
def gpfmScanMesh (g : GeomOracle K) (ray : Ray3 K) (acc : K × Vec3 K × Bool)
    (m : MeshData K) : K × Vec3 K × Bool :=
  if (g.rayBox ray m).isSome then
    match m.indices with
    | some _ => (meshTriangles m).foldl (gpfmScanTri g ray) acc
    | none => acc
  else acc

/-- The mesh scan of GetGroundPositionFromMouse. -/
def gpfmScan (g : GeomOracle K) (ray : Ray3 K) (model : ModelData K) :
    K × Vec3 K × Bool :=
  model.meshes.foldl (gpfmScanMesh g ray) ((10000 : K), (⟨0, 0, 0⟩ : Vec3 K), false)

/-- The ground-plane fallback of GetGroundPositionFromMouse (lines
373-385): t = -ray.position.y / ray.direction.y with NO guard on
ray.direction.y in the source; the Lean division convention x / 0 = 0 is
used here, whereas the C float division yields ±inf/NaN. -/
def groundPlaneFallback (ray : Ray3 K) : Vec3 K :=
  let t := -ray.position.y / ray.direction.y
  if 0 < t then
    ⟨ray.position.x + ray.direction.x * t, UNIT_HEIGHT_OFFSET,
     ray.position.z + ray.direction.z * t⟩
  else ⟨0, UNIT_HEIGHT_OFFSET, 0⟩

/-- GetGroundPositionFromMouse: if the scan hit, that point with the
clearance offset added to Y; otherwise the ground-plane intersection. -/
def getGroundPositionFromMouse (g : GeomOracle K) (ray : Ray3 K)
    (model : ModelData K) : Vec3 K :=
  let s := gpfmScan g ray model
  if s.2.2 then ⟨s.2.1.x, s.2.1.y + UNIT_HEIGHT_OFFSET, s.2.1.z⟩
  else groundPlaneFallback ray

end SpatialEngine

/-! ## Unit agent model (real-valued: raymath vector helpers need sqrt,
the steering needs trigonometry) -/

noncomputable section UnitAgent

/-- Unit movement constants of main.c. -/
def UNIT_SIZE : ℝ := 3/10

def UNIT_SPEED : ℝ := 2

def UNIT_TURN_SPEED : ℝ := 3

def UNIT_AVOIDANCE_DISTANCE : ℝ := 3/2

def UNIT_ARRIVAL_DISTANCE : ℝ := 1/2

/-- DEG2RAD = PI/180. -/
def DEG2RAD : ℝ := Real.pi / 180

/-- Vector3Add. -/
def v3add (a b : Vec3 ℝ) : Vec3 ℝ := ⟨a.x + b.x, a.y + b.y, a.z + b.z⟩

/-- Vector3Subtract. -/
def v3sub (a b : Vec3 ℝ) : Vec3 ℝ := ⟨a.x - b.x, a.y - b.y, a.z - b.z⟩

/-- Vector3Scale. -/
def v3scale (v : Vec3 ℝ) (s : ℝ) : Vec3 ℝ := ⟨v.x * s, v.y * s, v.z * s⟩

/-- Vector3Length. -/
def v3length (v : Vec3 ℝ) : ℝ := Real.sqrt (v.x ^ 2 + v.y ^ 2 + v.z ^ 2)

/-- Vector3Distance v1 v2 = length of (v2 - v1). -/
def v3distance (a b : Vec3 ℝ) : ℝ := v3length (v3sub b a)

/-- Vector3Normalize: scale by the reciprocal length (the zero vector is
returned unchanged). -/
def v3normalize (v : Vec3 ℝ) : Vec3 ℝ :=
  if v3length v = 0 then v else v3scale v (1 / v3length v)

/-- C atan2f, written with Real.arctan. -/
def atan2 (y x : ℝ) : ℝ :=
  if 0 < x then Real.arctan (y / x)
  else if x < 0 then
    (if 0 ≤ y then Real.arctan (y / x) + Real.pi else Real.arctan (y / x) - Real.pi)
  else if 0 < y then Real.pi / 2
  else if y < 0 then -(Real.pi / 2)
  else 0

/-- Closed form of the two rotation-difference while-loops of UpdateUnit
(subtract 2π while above π, add 2π while below -π). -/
def wrapAngle (d : ℝ) : ℝ :=
  if Real.pi < d then d - 2 * Real.pi * (Int.ceil ((d - Real.pi) / (2 * Real.pi)) : ℝ)
  else if d < -Real.pi then d + 2 * Real.pi * (Int.ceil ((-Real.pi - d) / (2 * Real.pi)) : ℝ)
  else d

/-- Stream of results of successive GetRandomValue calls (raylib's RNG,
external).  Each call site consumes the next value of the stream. -/
abbrev Rng : Type := Nat → Int

/-- Advance the random stream past n consumed values. -/
def rngShift (r : Rng) (n : Nat) : Rng := fun i => r (i + n)

/-- Per-unit state (the Color field, display-only and never read by the
simulation, is omitted). -/
structure UnitState where
  position : Vec3 ℝ
  velocity : Vec3 ℝ
  targetPosition : Vec3 ℝ
  commandTarget : Vec3 ℝ
  hasCommand : Bool
  rotation : ℝ
  moveTimer : ℝ
  size : ℝ
  active : Bool
  selected : Bool
  groupId : Nat

/-- The inter-unit proximity and scene-collision test of UpdateUnit
(lines 480-491): scene ray within UNIT_AVOIDANCE_DISTANCE, or any other
active unit closer than UNIT_SIZE * 3.  others is the list of units the
loop compares against (all units except the updated one itself). -/
def unitWillCollide (g : GeomOracle ℝ) (model : ModelData ℝ)
    (others : List UnitState) (u : UnitState) (direction : Vec3 ℝ) : Bool :=
  checkCollisionWithModel g u.position direction model UNIT_AVOIDANCE_DISTANCE ||
  others.any (fun o =>
    o.active && decide (v3distance u.position o.position < UNIT_SIZE * 3))

/-- The deflected direction of the avoidance branch (lines 495-503):
random angle within ±90° of the current heading, y component zero. -/
def avoidDirection (rng : Rng) (direction : Vec3 ℝ) : Vec3 ℝ :=
  let avoidanceAngle := ((rng 0 : ℤ) : ℝ) * DEG2RAD
  let newAngle := atan2 direction.z direction.x + avoidanceAngle
  ⟨Real.cos newAngle, 0, Real.sin newAngle⟩

/-- The wander retarget (lines 456-467): random direction and distance
from the current position, and a fresh 2-5 second timer.  Consumes three
random values. -/
def wanderRetarget (rng : Rng) (u : UnitState) : UnitState :=
  let angle := ((rng 0 : ℤ) : ℝ) * DEG2RAD
  let distance := ((rng 1 : ℤ) : ℝ)
  { u with
    targetPosition := ⟨u.position.x + Real.cos angle * distance, u.position.y,
                       u.position.z + Real.sin angle * distance⟩,
    moveTimer := ((rng 2 : ℤ) : ℝ) / 10 }

/-- The unobstructed move (lines 516-528): full-speed step toward the
target plus the smoothed rotation update. -/
def unitFreeMove (dt : ℝ) (u : UnitState) (direction : Vec3 ℝ) : UnitState :=
  { u with
    position := v3add u.position (v3scale direction (UNIT_SPEED * dt)),
    rotation := u.rotation +
      wrapAngle (atan2 direction.z direction.x - u.rotation) * UNIT_TURN_SPEED * dt }

/-- The steering part of UpdateUnit (lines 472-530): deadband, avoidance
test, then either the deflection branch (half speed with a command, pure
retarget when wandering) or the free move. -/
def unitSteer (g : GeomOracle ℝ) (model : ModelData ℝ) (others : List UnitState)
    (dt : ℝ) (u : UnitState) (actualTarget : Vec3 ℝ) (rng : Rng) :
    UnitState × Rng :=
  let direction0 := v3sub actualTarget u.position
  if v3length direction0 > 1/10 then
    let direction := v3normalize direction0
    if unitWillCollide g model others u direction then
      let dir2 := avoidDirection rng direction
      if u.hasCommand then
        ({ u with position := v3add u.position (v3scale dir2 (UNIT_SPEED * dt * (1/2))) },
         rngShift rng 1)
      else
        ({ u with targetPosition := v3add u.position (v3scale dir2 3), moveTimer := 1 },
         rngShift rng 1)
    else
      (unitFreeMove dt u direction, rng)
  else (u, rng)

/-- UpdateUnit up to (but not including) the final ground clamp (lines
437-530): target resolution (arrival check in command mode, timer and
retargeting in wander mode) followed by steering. -/
def updateUnitMove (g : GeomOracle ℝ) (model : ModelData ℝ) (others : List UnitState)
    (dt : ℝ) (u : UnitState) (rng : Rng) : UnitState × Rng :=
  if u.hasCommand then
    let u1 :=
      if v3distance u.position u.commandTarget < UNIT_ARRIVAL_DISTANCE then
        { u with hasCommand := false, moveTimer := 0 }
      else u
    unitSteer g model others dt u1 u.commandTarget rng
  else
    let u1 := { u with moveTimer := u.moveTimer - dt }
    if u1.moveTimer ≤ 0 then
      let u2 := wanderRetarget rng u1
      unitSteer g model others dt u2 u2.targetPosition (rngShift rng 3)
    else
      unitSteer g model others dt u1 u1.targetPosition rng

/-- UpdateUnit (lines 437-535): inactive units return unchanged;
otherwise move, then snap Y to the ground height sampled at the moved
position (lines 532-534). -/
def updateUnit (g : GeomOracle ℝ) (model : ModelData ℝ) (others : List UnitState)
    (dt : ℝ) (u : UnitState) (rng : Rng) : UnitState × Rng :=
  if u.active = false then (u, rng)
  else
    let r := updateUnitMove g model others dt u rng
    ({ r.1 with position := ⟨r.1.position.x, getGroundHeight g model r.1.position,
                             r.1.position.z⟩ }, r.2)

/-- Iterated simulation ticks with a fixed time step, threading the
random stream. -/
def runTicks (g : GeomOracle ℝ) (model : ModelData ℝ) (others : List UnitState)
    (dt : ℝ) : Nat → UnitState × Rng → UnitState × Rng
  | 0, s => s
  | n + 1, s => runTicks g model others dt n (updateUnit g model others dt s.1 s.2)

/-! ## Spawn (main.c lines 104-135) -/

/-- InitUnit: fresh unit at a position, random heading (one random value
consumed). -/
def initUnit (rng : Rng) (position : Vec3 ℝ) : UnitState :=
  { position := position
    velocity := ⟨0, 0, 0⟩
    targetPosition := position
    commandTarget := position
    hasCommand := false
    rotation := ((rng 0 : ℤ) : ℝ) * DEG2RAD
    moveTimer := 0
    size := UNIT_SIZE
    active := true
    selected := false
    groupId := 0 }

/-- The global unit array (modelled as a total function on slot indices)
and the unitCount high-water mark. -/
structure SpawnState where
  units : Nat → UnitState
  unitCount : Nat

/-- SpawnUnit: silently rejected at the MAX_UNITS cap; otherwise a new
unit at a random polar offset of centerPos is written into slot
unitCount and the count incremented. -/
def spawnUnit (centerPos : Vec3 ℝ) (rng : Rng) (st : SpawnState) : SpawnState :=
  if MAX_UNITS ≤ st.unitCount then st
  else
    let angle := ((rng 0 : ℤ) : ℝ) * DEG2RAD
    let distance := ((rng 1 : ℤ) : ℝ) / 10
    let spawnPos : Vec3 ℝ :=
      ⟨centerPos.x + Real.cos angle * distance,
       centerPos.y + UNIT_HEIGHT_OFFSET,
       centerPos.z + Real.sin angle * distance⟩
    { units := fun i => if i = st.unitCount then initUnit (rngShift rng 2) spawnPos
                        else st.units i,
      unitCount := st.unitCount + 1 }

/-! ## Selection and control groups (main.c lines 601-701)

The global units array prefix units[0..unitCount) is modelled as a list
(unitCount = list length); GetWorldToScreen with the current camera is
the external projection oracle. -/

/-- One control group: ordered member slot indices plus the active flag
(unitCount of the C struct = list length). -/
structure ControlGroupState where
  unitIndices : List Nat
  active : Bool

/-- The units array prefix together with the ten control-group slots
(index 0 unused). -/
structure SimState where
  units : List UnitState
  groups : Nat → ControlGroupState

/-- Is unit slot i active and selected? -/
def selActive (st : SimState) (i : Nat) : Bool :=
  match st.units[i]? with
  | some u => u.active && u.selected
  | none => false

/-- Remove slot i from group gid, compacting the list (the shift-down
loop removes the first matching entry). -/
def removeFromGroup (gs : Nat → ControlGroupState) (gid i : Nat) :
    Nat → ControlGroupState :=
  fun m => if m = gid then { gs gid with unitIndices := (gs gid).unitIndices.erase i }
           else gs m

/-- Phase 1 body of AssignControlGroup for slot i: selected active units
are pulled out of their previous group (if any) and stamped with the new
group id. -/
def assignClearStep (n : Nat) (st : SimState) (i : Nat) : SimState :=
  match st.units[i]? with
  | some u =>
      if u.active && u.selected then
        let gs := if 0 < u.groupId then removeFromGroup st.groups u.groupId i
                  else st.groups
        { units := st.units.set i { u with groupId := n }, groups := gs }
      else st
  | none => st

/-- AssignControlGroup (lines 630-664): out-of-range group numbers are a
no-op; otherwise phase 1 clears old assignments of the selected units,
then the group is rebuilt from scratch (unitCount = 0) with exactly the
currently selected active units, and marked active. -/
def assignControlGroup (n : Nat) (st : SimState) : SimState :=
  if n < 1 || 9 < n then st
  else
    let st1 := (List.range st.units.length).foldl (assignClearStep n) st
    let newList := (List.range st1.units.length).filter (fun i => selActive st1 i)
    { units := st1.units,
      groups := fun m => if m = n then ⟨newList, true⟩ else st1.groups m }

/-- One marking step of SelectControlGroup: accumulator carries the unit
list, the centroid sum and validCount; stale indices (out of range or
deactivated) are skipped. -/
def selectMarkStep (acc : List UnitState × Vec3 ℝ × Nat) (idx : Nat) :
    List UnitState × Vec3 ℝ × Nat :=
  match acc.1[idx]? with
  | some u =>
      if u.active then
        (acc.1.set idx { u with selected := true },
         ⟨acc.2.1.x + u.position.x, acc.2.1.y + u.position.y, acc.2.1.z + u.position.z⟩,
         acc.2.2 + 1)
      else acc
  | none => acc

/-- The unit-list component of one SelectControlGroup marking step (the
centroid accumulation does not feed back into the list). -/
def selectMarkUnits (us : List UnitState) (idx : Nat) : List UnitState :=
  match us[idx]? with
  | some u => if u.active then us.set idx { u with selected := true } else us
  | none => us

/-- The deselect-then-mark scan of SelectControlGroup over the group's
member indices (unit list, centroid sum and validCount). -/
def selectGroupScan (n : Nat) (st : SimState) : List UnitState × Vec3 ℝ × Nat :=
  (st.groups n).unitIndices.foldl selectMarkStep
    (st.units.map (fun u => { u with selected := false }), ⟨0, 0, 0⟩, 0)

/-- SelectControlGroup (lines 667-701): no-op returning the zero vector
for out-of-range numbers and inactive/empty groups; otherwise deselect
everything, select the still-active members, and return their centroid
(zero vector when none resolved). -/
def selectControlGroup (n : Nat) (st : SimState) : Vec3 ℝ × SimState :=
  if n < 1 || 9 < n then (⟨0, 0, 0⟩, st)
  else if !(st.groups n).active || (st.groups n).unitIndices.length == 0 then
    (⟨0, 0, 0⟩, st)
  else if 0 < (selectGroupScan n st).2.2 then
    (⟨(selectGroupScan n st).2.1.x / ((selectGroupScan n st).2.2 : ℝ),
      (selectGroupScan n st).2.1.y / ((selectGroupScan n st).2.2 : ℝ),
      (selectGroupScan n st).2.1.z / ((selectGroupScan n st).2.2 : ℝ)⟩,
     { units := (selectGroupScan n st).1, groups := st.groups })
  else (⟨0, 0, 0⟩, { units := (selectGroupScan n st).1, groups := st.groups })

/-- The screen-space rectangle test of SelectUnitsInBox: min/max
normalised corners, then containment of the projected position (proj
models GetWorldToScreen with the current camera). -/
def inSelectionBox (proj : Vec3 ℝ → ℝ × ℝ) (s e : ℝ × ℝ) (p : Vec3 ℝ) : Bool :=
  let minX := min s.1 e.1
  let maxX := max s.1 e.1
  let minY := min s.2 e.2
  let maxY := max s.2 e.2
  let sp := proj p
  decide (minX ≤ sp.1) && decide (sp.1 ≤ maxX) &&
  decide (minY ≤ sp.2) && decide (sp.2 ≤ maxY)

/-- SelectUnitsInBox (lines 602-627): deselect all units, then select
every active unit whose projection falls inside the rectangle. -/
def selectUnitsInBox (proj : Vec3 ℝ → ℝ × ℝ) (s e : ℝ × ℝ)
    (units : List UnitState) : List UnitState :=
  let des := units.map (fun u => { u with selected := false })
  des.map (fun u =>
    if u.active then
      (if inSelectionBox proj s e u.position then { u with selected := true } else u)
    else u)

end UnitAgent

/-! ## Concrete scenes, oracles and states used in the closed-form checks -/

/-- Oracle whose box and triangle tests never hit (an empty scene from
the ray's point of view). -/
def qTrivOracle : GeomOracle ℚ := ⟨fun _ _ => none, fun _ _ _ _ => none, id⟩

/-- A camera ray parallel to the ground plane (direction.y = 0) whose
origin is below it. -/
def c3ray : Ray3 ℚ := ⟨⟨0, -1, 0⟩, ⟨1, 0, 0⟩⟩

def c3model : ModelData ℚ := ⟨[]⟩

/-- Oracle for the two-mesh ground scene: both boxes hit; the triangle
whose first vertex has x = 100 is hit at distance 5 (point y = 7), the
one with x = 200 at distance 3 (point y = 4). -/
def c4oracle : GeomOracle ℚ :=
  { rayBox := fun _ _ => some 0
    rayTri := fun _ v0 _ _ =>
      if v0.x = 100 then some ⟨5, ⟨0, 7, 0⟩⟩
      else if v0.x = 200 then some ⟨3, ⟨0, 4, 0⟩⟩
      else none
    xform := id }

/-- Non-indexed single-triangle mesh (first vertex x = 100). -/
def c4meshA : MeshData ℚ := ⟨[100, 0, 0, 0, 0, 0, 0, 0, 0], none, 1⟩

/-- Indexed single-triangle mesh (first vertex x = 200). -/
def c4meshB : MeshData ℚ := ⟨[200, 0, 0, 0, 0, 0, 0, 0, 0], some [0, 1, 2], 1⟩

/-- The farther mesh comes first in scan order. -/
def c4model : ModelData ℚ := ⟨[c4meshA, c4meshB]⟩

def c4pos : Vec3 ℚ := ⟨0, 0, 0⟩

/-- Oracle whose box and triangle tests always hit. -/
def c10oracle : GeomOracle ℚ :=
  ⟨fun _ _ => some 0, fun _ _ _ _ => some ⟨1, ⟨0, 0, 0⟩⟩, id⟩

/-- A model holding a single non-indexed mesh. -/
def c10mesh : MeshData ℚ := ⟨[0, 0, 0, 0, 0, 0, 0, 0, 0], none, 1⟩

def c10model : ModelData ℚ := ⟨[c10mesh]⟩

def c10ray : Ray3 ℚ := ⟨⟨0, 0, 0⟩, ⟨1, 0, 0⟩⟩

noncomputable section RealInstances

/-- Real-valued oracle that never hits (the empty scene's queries). -/
def rTrivOracle : GeomOracle ℝ := ⟨fun _ _ => none, fun _ _ _ _ => none, id⟩

/-- A model with no meshes at all. -/
def emptyModel : ModelData ℝ := ⟨[]⟩

/-- The all-zero random stream. -/
def rngZero : Rng := fun _ => 0

/-- A plain active unit at the origin with no command and no group. -/
def baseUnit : UnitState :=
  { position := ⟨0, 0, 0⟩
    velocity := ⟨0, 0, 0⟩
    targetPosition := ⟨0, 0, 0⟩
    commandTarget := ⟨0, 0, 0⟩
    hasCommand := false
    rotation := 0
    moveTimer := 0
    size := UNIT_SIZE
    active := true
    selected := false
    groupId := 0 }

/-- An active unit sitting close to the origin (within the separation
radius of a unit standing there). -/
def peerUnit : UnitState := { baseUnit with position := ⟨0, 0, 1/2⟩ }

/-- Commanded unit: target 2 units away along x. -/
def c1wUnit : UnitState := { baseUnit with hasCommand := true, commandTarget := ⟨2, 0, 0⟩ }

/-- Wandering unit whose stored wander target lies 2 units overhead and
whose wander timer is far from expiry. -/
def c1cUnit : UnitState := { baseUnit with moveTimer := 5, targetPosition := ⟨0, 2, 0⟩ }

/-- Commanded unit resting on the default ground height with its command
target 3 units away along x at the same height. -/
def c5wUnit : UnitState :=
  { baseUnit with hasCommand := true, position := ⟨0, 1/5, 0⟩,
                  commandTarget := ⟨3, 1/5, 0⟩ }

/-- A control group slot holding nothing. -/
def emptyGroup : ControlGroupState := ⟨[], false⟩

/-- Two units: slot 0 is an unselected member of group 1, slot 1 is
selected and ungrouped. -/
def c2state : SimState :=
  { units := [{ baseUnit with groupId := 1 }, { baseUnit with selected := true }]
    groups := fun m => if m = 1 then ⟨[0], true⟩ else emptyGroup }

/-- A full unit array: spawn must reject. -/
def c9state : SpawnState := ⟨fun _ => baseUnit, 100⟩

end RealInstances

/-! ## Helper lemmas: the closest-hit scan -/

section SpatialLemmas

variable {K : Type} [LinearOrderedField K]

theorem scanHits_nil (acc : K × K) : scanHits ([] : List (Hit3 K)) acc = acc := rfl

theorem scanHits_append (l1 l2 : List (Hit3 K)) (acc : K × K) :
    scanHits (l1 ++ l2) acc = scanHits l2 (scanHits l1 acc) :=
  List.foldl_append ..

/-- Folding the per-triangle scan over a triangle list is the same as
folding the closest-hit tracker over the list of successful hits. -/
theorem foldl_groundScanTri_eq_scanHits (g : GeomOracle K) (ray : Ray3 K)
    (ts : List (Vec3 K × Vec3 K × Vec3 K)) (acc : K × K) :
    ts.foldl (groundScanTri g ray) acc = scanHits (ts.filterMap (triHit g ray)) acc := by
  induction ts generalizing acc with
  | nil => rfl
  | cons t ts ih =>
      simp only [List.foldl_cons, List.filterMap_cons, groundScanTri]
      cases h : triHit g ray t with
      | none => simpa using ih acc
      | some hit =>
          simp only [scanHits, List.foldl_cons]
          exact ih _

/-- The whole-model fold tracks exactly the hits of box-accepted meshes;
under box-completeness (a missed box means no triangle hits) it tracks
all hits of the model. -/
theorem foldl_groundScanMesh_eq_scanHits (g : GeomOracle K) (ray : Ray3 K)
    (ms : List (MeshData K)) (acc : K × K)
    (hbox : ∀ m ∈ ms, g.rayBox ray m = none → meshHits g ray m = []) :
    ms.foldl (groundScanMesh g ray) acc = scanHits (ms.flatMap (meshHits g ray)) acc := by
  induction ms generalizing acc with
  | nil => rfl
  | cons m ms ih =>
      simp only [List.foldl_cons, List.flatMap_cons, scanHits_append]
      have hrec := ih (groundScanMesh g ray acc m)
        (fun m' hm' => hbox m' (List.mem_cons_of_mem _ hm'))
      rw [hrec]
      congr 1
      unfold groundScanMesh
      cases hb : g.rayBox ray m with
      | none =>
          simp only [Option.isSome_none, Bool.false_eq_true, if_false]
          rw [hbox m (List.mem_cons_self ..) hb, scanHits_nil]
      | some d =>
          simp only [Option.isSome_some, if_true]
          exact foldl_groundScanTri_eq_scanHits g ray _ acc

/-- Characterization of the closest-hit tracker: either no hit beats the
accumulator and it is returned unchanged, or some globally minimal hit
(strictly beating the accumulator) is returned. -/
theorem scanHits_spec (hs : List (Hit3 K)) (acc : K × K) :
    (scanHits hs acc = acc ∧ ∀ h ∈ hs, acc.1 ≤ h.distance) ∨
    (∃ h ∈ hs, scanHits hs acc = (h.distance, h.point.y) ∧ h.distance < acc.1 ∧
      ∀ h2 ∈ hs, h.distance ≤ h2.distance) := by
  induction hs generalizing acc with
  | nil => exact Or.inl ⟨rfl, by simp⟩
  | cons h t ih =>
      by_cases hlt : h.distance < acc.1
      · have step : scanHits (h :: t) acc = scanHits t (h.distance, h.point.y) := by
          simp [scanHits, hlt]
        rcases ih (h.distance, h.point.y) with ⟨heq, hall⟩ | ⟨h2, hmem, heq, hlt2, hall⟩
        · refine Or.inr ⟨h, List.mem_cons_self .., ?_, hlt, ?_⟩
          · rw [step, heq]
          · intro h2 hh2
            rcases List.mem_cons.mp hh2 with rfl | hh2
            · exact le_refl _
            · exact hall h2 hh2
        · refine Or.inr ⟨h2, List.mem_cons_of_mem _ hmem, ?_, lt_trans hlt2 hlt, ?_⟩
          · rw [step, heq]
          · intro h3 hh3
            rcases List.mem_cons.mp hh3 with rfl | hh3
            · exact le_of_lt hlt2
            · exact hall h3 hh3
      · have step : scanHits (h :: t) acc = scanHits t acc := by
          simp [scanHits, hlt]
        rcases ih acc with ⟨heq, hall⟩ | ⟨h2, hmem, heq, hlt2, hall⟩
        · refine Or.inl ⟨by rw [step, heq], ?_⟩
          intro h2 hh2
          rcases List.mem_cons.mp hh2 with rfl | hh2
          · exact le_of_not_lt hlt
          · exact hall h2 hh2
        · refine Or.inr ⟨h2, List.mem_cons_of_mem _ hmem, by rw [step, heq], hlt2, ?_⟩
          intro h3 hh3
          rcases List.mem_cons.mp hh3 with rfl | hh3
          · exact le_of_lt (lt_of_lt_of_le hlt2 (le_of_not_lt hlt))
          · exact hall h3 hh3

/-- A mesh whose indices pointer is null contributes nothing to the
GetGroundPositionFromMouse scan. -/
theorem gpfmScanMesh_nonindexed (g : GeomOracle K) (ray : Ray3 K)
    (acc : K × Vec3 K × Bool) (m : MeshData K) (h : m.indices = none) :
    gpfmScanMesh g ray acc m = acc := by
  unfold gpfmScanMesh
  cases hb : (g.rayBox ray m).isSome with
  | false => simp
  | true => simp [h]

end SpatialLemmas

/-! ## Claim theorems: spatial query engine -/

/-- C4: GetGroundHeight casts a fixed downward ray from 10 above the
query point, scans all meshes in both triangle layouts, and returns the
Y of the globally nearest hit plus UNIT_HEIGHT_OFFSET, or the default
UNIT_HEIGHT_OFFSET when no surface is hit — never the first mesh with
any hit.  Box-rejection soundness (a missed bounding box means no
triangle of that mesh is hit) and hit distances below the 10000 sentinel
are assumed of the external ray-cast oracle. -/
theorem getGroundHeight_globally_nearest {K : Type} [LinearOrderedField K]
    (g : GeomOracle K) (model : ModelData K) (position : Vec3 K)
    (hbox : ∀ m ∈ model.meshes, g.rayBox (groundRay position) m = none →
      meshHits g (groundRay position) m = [])
    (hlt : ∀ h ∈ modelHits g (groundRay position) model, h.distance < 10000) :
    (modelHits g (groundRay position) model = [] →
      getGroundHeight g model position = UNIT_HEIGHT_OFFSET) ∧
    (modelHits g (groundRay position) model ≠ [] →
      ∃ h ∈ modelHits g (groundRay position) model,
        (∀ h2 ∈ modelHits g (groundRay position) model, h.distance ≤ h2.distance) ∧
        getGroundHeight g model position = h.point.y + UNIT_HEIGHT_OFFSET) := by
  have key : model.meshes.foldl (groundScanMesh g (groundRay position)) (10000, 0) =
      scanHits (modelHits g (groundRay position) model) (10000, 0) :=
    foldl_groundScanMesh_eq_scanHits g (groundRay position) model.meshes (10000, 0) hbox
  constructor
  · intro hnil
    rw [getGroundHeight, key, hnil, scanHits_nil]
    simp
  · intro hne
    rcases scanHits_spec (modelHits g (groundRay position) model) (10000, 0) with
      ⟨_, hall⟩ | ⟨h, hm, heq, _, hall⟩
    · rcases List.exists_mem_of_ne_nil _ hne with ⟨h0, hh0⟩
      exact absurd (hall h0 hh0) (not_le_of_lt (hlt h0 hh0))
    · refine ⟨h, hm, hall, ?_⟩
      rw [getGroundHeight, key, heq]
      simp [not_le_of_lt (hlt h hm)]

/-- Concrete check for C4: a downward ray over a two-mesh scene (one
non-indexed mesh hit at distance 5, one indexed mesh hit at distance 3);
the globally nearest hit (from the second mesh) wins. -/
theorem getGroundHeight_globally_nearest_check :
    ∃ h ∈ modelHits c4oracle (groundRay c4pos) c4model,
      (∀ h2 ∈ modelHits c4oracle (groundRay c4pos) c4model, h.distance ≤ h2.distance) ∧
      getGroundHeight c4oracle c4model c4pos = h.point.y + UNIT_HEIGHT_OFFSET :=
  (getGroundHeight_globally_nearest c4oracle c4model c4pos
    (by decide) (by decide)).2 (by decide)

/-- C3: the screen-to-world projection has NO guard on a ray parallel to
the ground plane: on a miss of all geometry (hitFound stays false) with
direction.y = 0, the source executes t = -ray.position.y /
ray.direction.y — a division by zero.  The embedding (Lean convention
x / 0 = 0) reaches the fallback line with a zero divisor, witnessed here
at a concrete parallel ray below the plane, where the C float division
would give t = +inf and non-finite coordinates rather than the fixed
default point the spec prescribes. -/
theorem gpfm_parallel_ray_division_reached :
    (gpfmScan qTrivOracle c3ray c3model).2.2 = false ∧
    c3ray.direction.y = 0 ∧ c3ray.position.y < 0 ∧
    getGroundPositionFromMouse qTrivOracle c3ray c3model = groundPlaneFallback c3ray := by
  refine ⟨rfl, rfl, by decide, rfl⟩

/-- C10: GetGroundPositionFromMouse tests triangles only for meshes that
carry an index array: meshes with a null indices pointer never register
a hit (the scan over a model equals the scan over its indexed meshes
only), so a model of only non-indexed meshes always falls through to the
ground-plane intersection; CheckCollisionWithModel, by contrast, does
walk the triangles of such a mesh. -/
theorem gpfm_skips_nonindexed_meshes :
    (∀ (K : Type) [LinearOrderedField K] (g : GeomOracle K) (ray : Ray3 K)
       (ms : List (MeshData K)) (acc : K × Vec3 K × Bool),
       ms.foldl (gpfmScanMesh g ray) acc =
         (ms.filter (fun m => m.indices.isSome)).foldl (gpfmScanMesh g ray) acc) ∧
    (∀ (K : Type) [LinearOrderedField K] (g : GeomOracle K) (ray : Ray3 K)
       (model : ModelData K), (∀ m ∈ model.meshes, m.indices = none) →
       getGroundPositionFromMouse g ray model = groundPlaneFallback ray) ∧
    (checkCollisionWithModel c10oracle ⟨0, 0, 0⟩ ⟨1, 0, 0⟩ c10model 100 = true ∧
     (gpfmScan c10oracle c10ray c10model).2.2 = false) := by
  have hfold : ∀ (K : Type) (inst : LinearOrderedField K) (g : GeomOracle K)
      (ray : Ray3 K) (ms : List (MeshData K)) (acc : K × Vec3 K × Bool),
      ms.foldl (gpfmScanMesh g ray) acc =
        (ms.filter (fun m => m.indices.isSome)).foldl (gpfmScanMesh g ray) acc := by
    intro K inst g ray ms
    induction ms with
    | nil => intro acc; rfl
    | cons m ms ih =>
        intro acc
        cases hm : m.indices with
        | none =>
            simp only [List.foldl_cons, List.filter_cons, hm, Option.isSome_none,
              Bool.false_eq_true, if_false]
            rw [gpfmScanMesh_nonindexed g ray acc m hm]
            exact ih acc
        | some idx =>
            simp only [List.foldl_cons, List.filter_cons, hm, Option.isSome_some, if_true]
            exact ih _
  refine ⟨fun K inst => hfold K inst, ?_, by decide, by decide⟩
  intro K inst g ray model hall
  have hnil : model.meshes.filter (fun m => m.indices.isSome) = [] := by
    apply List.filter_eq_nil_iff.mpr
    intro m hm
    rw [hall m hm]
    simp
  have : gpfmScan g ray model = ((10000 : K), (⟨0, 0, 0⟩ : Vec3 K), false) := by
    rw [gpfmScan, hfold K inst g ray model.meshes, hnil]
    rfl
  rw [getGroundPositionFromMouse, this]
  simp

/-- Closed check for C10: a single-mesh model without indices, an
always-hit oracle, and the screen ray still falls back to the plane
intersection. -/
theorem gpfm_skips_nonindexed_meshes_check :
    getGroundPositionFromMouse c10oracle c10ray c10model = groundPlaneFallback c10ray :=
  gpfm_skips_nonindexed_meshes.2.1 ℚ c10oracle c10ray c10model (by decide)

/-! ## Claim theorems: spawn cap and box selection -/

/-- C9: SpawnUnit at or beyond the MAX_UNITS cap is a silent no-op (the
state is returned untouched, no error is surfaced), and a spawn from any
state within the cap keeps unitCount within the cap — so unitCount never
exceeds MAX_UNITS. -/
theorem spawnUnit_cap (centerPos : Vec3 ℝ) (rng : Rng) (st : SpawnState) :
    (MAX_UNITS ≤ st.unitCount → spawnUnit centerPos rng st = st) ∧
    (st.unitCount ≤ MAX_UNITS → (spawnUnit centerPos rng st).unitCount ≤ MAX_UNITS) := by
  constructor
  · intro h
    unfold spawnUnit
    rw [if_pos h]
  · intro h
    by_cases hc : MAX_UNITS ≤ st.unitCount
    · unfold spawnUnit
      rw [if_pos hc]
      exact h
    · unfold spawnUnit
      rw [if_neg hc]
      have : st.unitCount < MAX_UNITS := lt_of_not_le hc
      exact this

/-- Closed check for C9 at a full (unitCount = 100) state. -/
theorem spawnUnit_cap_check :
    spawnUnit ⟨0, 0, 0⟩ rngZero c9state = c9state ∧
    (spawnUnit ⟨0, 0, 0⟩ rngZero c9state).unitCount ≤ MAX_UNITS :=
  ⟨(spawnUnit_cap ⟨0, 0, 0⟩ rngZero c9state).1 (by decide),
   (spawnUnit_cap ⟨0, 0, 0⟩ rngZero c9state).2 (by decide)⟩

/-- C7: BoxSelect is idempotent: with the same projection (camera), the
same two rectangle corners in any order, and unchanged unit positions,
running SelectUnitsInBox twice equals running it once. -/
theorem selectUnitsInBox_idempotent (proj : Vec3 ℝ → ℝ × ℝ) (s e : ℝ × ℝ)
    (units : List UnitState) :
    selectUnitsInBox proj s e (selectUnitsInBox proj s e units) =
      selectUnitsInBox proj s e units := by
  unfold selectUnitsInBox
  simp only [List.map_map]
  congr 1
  funext u
  simp only [Function.comp]
  by_cases ha : u.active = true <;>
    by_cases hb : inSelectionBox proj s e u.position = true <;>
    simp [ha, hb]


/-! ## Helper lemmas: evaluating the unit update -/

section UnitLemmas

/-- An empty-mesh model yields no collision whatever the query. -/
theorem checkCollisionWithModel_empty (g : GeomOracle ℝ) (o d : Vec3 ℝ) (maxd : ℝ) :
    checkCollisionWithModel g o d emptyModel maxd = false := rfl

/-- With an empty-mesh model and no peers, the avoidance test is false. -/
theorem unitWillCollide_empty (g : GeomOracle ℝ) (u : UnitState) (dir : Vec3 ℝ) :
    unitWillCollide g emptyModel [] u dir = false := rfl

/-- A nearby active peer makes the avoidance test fire regardless of the
direction queried. -/
theorem unitWillCollide_peer (g : GeomOracle ℝ) (u o : UnitState) (dir : Vec3 ℝ)
    (ho : o.active = true)
    (hd : v3distance u.position o.position < UNIT_SIZE * 3) :
    unitWillCollide g emptyModel [o] u dir = true := by
  unfold unitWillCollide
  rw [checkCollisionWithModel_empty]
  simp [ho, hd]

/-- GetGroundHeight over an empty-mesh model returns the default height. -/
theorem getGroundHeight_empty (g : GeomOracle ℝ) (p : Vec3 ℝ) :
    getGroundHeight g emptyModel p = UNIT_HEIGHT_OFFSET := by
  unfold getGroundHeight emptyModel
  simp

/-- Evaluate a Vector3Distance from the sum of squared component
differences. -/
theorem v3distance_eval (p q : Vec3 ℝ) (r : ℝ) (hr : 0 ≤ r)
    (h : (q.x - p.x) ^ 2 + (q.y - p.y) ^ 2 + (q.z - p.z) ^ 2 = r ^ 2) :
    v3distance p q = r := by
  unfold v3distance v3length v3sub
  simp only
  rw [h, Real.sqrt_sq hr]

/-- Distances are nonnegative. -/
theorem v3distance_nonneg (p q : Vec3 ℝ) : 0 ≤ v3distance p q :=
  Real.sqrt_nonneg _

/-- Scaling scales the length by the absolute factor. -/
theorem v3length_scale (v : Vec3 ℝ) (c : ℝ) :
    v3length (v3scale v c) = |c| * v3length v := by
  unfold v3length v3scale
  simp only
  have h : (v.x * c) ^ 2 + (v.y * c) ^ 2 + (v.z * c) ^ 2 =
      c ^ 2 * (v.x ^ 2 + v.y ^ 2 + v.z ^ 2) := by ring
  rw [h, Real.sqrt_mul (sq_nonneg c), Real.sqrt_sq_eq_abs]

/-- A unit's UpdateUnit tick, for an active unit: move, then clamp Y to
the ground sample at the moved position. -/
theorem updateUnit_active (g : GeomOracle ℝ) (model : ModelData ℝ)
    (others : List UnitState) (dt : ℝ) (u : UnitState) (rng : Rng)
    (ha : u.active = true) :
    updateUnit g model others dt u rng =
      ({ (updateUnitMove g model others dt u rng).1 with
          position := ⟨(updateUnitMove g model others dt u rng).1.position.x,
                       getGroundHeight g model (updateUnitMove g model others dt u rng).1.position,
                       (updateUnitMove g model others dt u rng).1.position.z⟩ },
       (updateUnitMove g model others dt u rng).2) := by
  unfold updateUnit
  rw [if_neg (by simp [ha])]

/-- Command-mode target resolution when not yet arrived. -/
theorem updateUnitMove_command_far (g : GeomOracle ℝ) (model : ModelData ℝ)
    (others : List UnitState) (dt : ℝ) (u : UnitState) (rng : Rng)
    (hc : u.hasCommand = true)
    (hfar : ¬ v3distance u.position u.commandTarget < UNIT_ARRIVAL_DISTANCE) :
    updateUnitMove g model others dt u rng =
      unitSteer g model others dt u u.commandTarget rng := by
  unfold updateUnitMove
  rw [if_pos hc, if_neg hfar]

/-- Command-mode target resolution on the arrival tick: the command is
cleared, the wander timer reset, and the unit still steers toward the
command target this tick. -/
theorem updateUnitMove_command_near (g : GeomOracle ℝ) (model : ModelData ℝ)
    (others : List UnitState) (dt : ℝ) (u : UnitState) (rng : Rng)
    (hc : u.hasCommand = true)
    (hnear : v3distance u.position u.commandTarget < UNIT_ARRIVAL_DISTANCE) :
    updateUnitMove g model others dt u rng =
      unitSteer g model others dt { u with hasCommand := false, moveTimer := 0 }
        u.commandTarget rng := by
  unfold updateUnitMove
  rw [if_pos hc, if_pos hnear]

/-- Wander-mode target resolution when the timer has not expired. -/
theorem updateUnitMove_wander_ticking (g : GeomOracle ℝ) (model : ModelData ℝ)
    (others : List UnitState) (dt : ℝ) (u : UnitState) (rng : Rng)
    (hnc : u.hasCommand = false) (ht : ¬ u.moveTimer - dt ≤ 0) :
    updateUnitMove g model others dt u rng =
      unitSteer g model others dt { u with moveTimer := u.moveTimer - dt }
        u.targetPosition rng := by
  unfold updateUnitMove
  rw [if_neg (by simp [hnc])]
  simp only
  rw [if_neg ht]

/-- The steering deadband: within 0.1 of the target nothing moves. -/
theorem unitSteer_deadband (g : GeomOracle ℝ) (model : ModelData ℝ)
    (others : List UnitState) (dt : ℝ) (u : UnitState) (t : Vec3 ℝ) (rng : Rng)
    (h : ¬ v3length (v3sub t u.position) > 1/10) :
    unitSteer g model others dt u t rng = (u, rng) := by
  unfold unitSteer
  rw [if_neg h]

/-- The free move: far enough from the target and no avoidance. -/
theorem unitSteer_free (g : GeomOracle ℝ) (model : ModelData ℝ)
    (others : List UnitState) (dt : ℝ) (u : UnitState) (t : Vec3 ℝ) (rng : Rng)
    (h01 : v3length (v3sub t u.position) > 1/10)
    (hcol : unitWillCollide g model others u (v3normalize (v3sub t u.position)) = false) :
    unitSteer g model others dt u t rng =
      (unitFreeMove dt u (v3normalize (v3sub t u.position)), rng) := by
  unfold unitSteer
  rw [if_pos h01]
  simp only [hcol]
  rw [if_neg (by simp)]

/-- The avoidance branch of a commanded unit: half-speed deflected step,
stored targets untouched. -/
theorem unitSteer_avoid_command (g : GeomOracle ℝ) (model : ModelData ℝ)
    (others : List UnitState) (dt : ℝ) (u : UnitState) (t : Vec3 ℝ) (rng : Rng)
    (h01 : v3length (v3sub t u.position) > 1/10)
    (hcol : unitWillCollide g model others u (v3normalize (v3sub t u.position)) = true)
    (hc : u.hasCommand = true) :
    unitSteer g model others dt u t rng =
      ({ u with
          position := v3add u.position
            (v3scale (avoidDirection rng (v3normalize (v3sub t u.position)))
              (UNIT_SPEED * dt * (1/2))) }, rngShift rng 1) := by
  unfold unitSteer
  rw [if_pos h01]
  simp only [hcol, if_true]
  rw [if_pos hc]

/-- The avoidance branch of a wandering unit: the stored wander target
is rewritten 3 units along the deflected direction and the wander timer
reset to 1; the position does not move this tick. -/
theorem unitSteer_avoid_wander (g : GeomOracle ℝ) (model : ModelData ℝ)
    (others : List UnitState) (dt : ℝ) (u : UnitState) (t : Vec3 ℝ) (rng : Rng)
    (h01 : v3length (v3sub t u.position) > 1/10)
    (hcol : unitWillCollide g model others u (v3normalize (v3sub t u.position)) = true)
    (hnc : u.hasCommand = false) :
    unitSteer g model others dt u t rng =
      ({ u with
          targetPosition := v3add u.position
            (v3scale (avoidDirection rng (v3normalize (v3sub t u.position))) 3),
          moveTimer := 1 }, rngShift rng 1) := by
  unfold unitSteer
  rw [if_pos h01]
  simp only [hcol, if_true]
  rw [if_neg (by simp [hnc])]

end UnitLemmas

/-! ## Claim theorems: unit agent (ground clamp) -/

/-- C8: for every active unit and every branch of the per-tick update,
UpdateUnit ends by snapping the unit's Y to the GroundHeight sample
taken at the post-move position (X and Z are exactly the post-move
coordinates); with no meshes below, that sample is the fixed default
height, so units never free-fall or fly. -/
theorem updateUnit_rests_on_ground (g : GeomOracle ℝ) (model : ModelData ℝ)
    (others : List UnitState) (dt : ℝ) (u : UnitState) (rng : Rng)
    (ha : u.active = true) :
    (updateUnit g model others dt u rng).1.position.y =
      getGroundHeight g model (updateUnitMove g model others dt u rng).1.position ∧
    (updateUnit g model others dt u rng).1.position.x =
      (updateUnitMove g model others dt u rng).1.position.x ∧
    (updateUnit g model others dt u rng).1.position.z =
      (updateUnitMove g model others dt u rng).1.position.z ∧
    (model = emptyModel →
      (updateUnit g model others dt u rng).1.position.y = UNIT_HEIGHT_OFFSET) := by
  rw [updateUnit_active g model others dt u rng ha]
  refine ⟨rfl, rfl, rfl, ?_⟩
  intro hm
  subst hm
  exact getGroundHeight_empty g _

/-- Closed check for C8 at a concrete active unit over the empty scene. -/
theorem updateUnit_rests_on_ground_check :
    (updateUnit rTrivOracle emptyModel [] 1 baseUnit rngZero).1.position.y =
      getGroundHeight rTrivOracle emptyModel
        (updateUnitMove rTrivOracle emptyModel [] 1 baseUnit rngZero).1.position :=
  (updateUnit_rests_on_ground rTrivOracle emptyModel [] 1 baseUnit rngZero rfl).1

/-- C1 (amended): when an active unit holds a command it has not yet
arrived at (distance at least the arrival threshold) and this tick's
avoidance test fires, the deflection leaves both the stored command
target and the stored wander target unchanged and the command active —
a local detour.  (In the wandering case, by contrast, the avoidance
branch rewrites the stored wander target; see the counterexample.) -/
theorem updateUnit_command_avoidance_keeps_targets (g : GeomOracle ℝ)
    (model : ModelData ℝ) (others : List UnitState) (dt : ℝ) (u : UnitState)
    (rng : Rng) (ha : u.active = true) (hc : u.hasCommand = true)
    (hfar : ¬ v3distance u.position u.commandTarget < UNIT_ARRIVAL_DISTANCE)
    (hcol : unitWillCollide g model others u
      (v3normalize (v3sub u.commandTarget u.position)) = true) :
    (updateUnit g model others dt u rng).1.commandTarget = u.commandTarget ∧
    (updateUnit g model others dt u rng).1.targetPosition = u.targetPosition ∧
    (updateUnit g model others dt u rng).1.hasCommand = true := by
  have hd : (1:ℝ)/2 ≤ v3distance u.position u.commandTarget := by
    have h := not_lt.mp hfar
    unfold UNIT_ARRIVAL_DISTANCE at h
    exact h
  have h01 : v3length (v3sub u.commandTarget u.position) > 1/10 := by
    have he : v3distance u.position u.commandTarget =
        v3length (v3sub u.commandTarget u.position) := rfl
    rw [he] at hd
    linarith
  rw [updateUnit_active g model others dt u rng ha,
      updateUnitMove_command_far g model others dt u rng hc hfar,
      unitSteer_avoid_command g model others dt u u.commandTarget rng h01 hcol hc]
  exact ⟨rfl, rfl, hc⟩

/-- Closed check for C1: a commanded unit 2 away from its target with an
active peer half a unit away (inside the separation radius); the
deflected tick changes neither stored target. -/
theorem updateUnit_command_avoidance_keeps_targets_check :
    c1wUnit.active = true ∧ c1wUnit.hasCommand = true ∧
    ¬ v3distance c1wUnit.position c1wUnit.commandTarget < UNIT_ARRIVAL_DISTANCE ∧
    unitWillCollide rTrivOracle emptyModel [peerUnit] c1wUnit
      (v3normalize (v3sub c1wUnit.commandTarget c1wUnit.position)) = true ∧
    (updateUnit rTrivOracle emptyModel [peerUnit] 1 c1wUnit rngZero).1.commandTarget =
      c1wUnit.commandTarget ∧
    (updateUnit rTrivOracle emptyModel [peerUnit] 1 c1wUnit rngZero).1.targetPosition =
      c1wUnit.targetPosition := by
  have hdist : v3distance c1wUnit.position c1wUnit.commandTarget = 2 := by
    refine v3distance_eval _ _ 2 (by norm_num) ?_
    show ((2:ℝ) - 0) ^ 2 + ((0:ℝ) - 0) ^ 2 + ((0:ℝ) - 0) ^ 2 = 2 ^ 2
    norm_num
  have hfar : ¬ v3distance c1wUnit.position c1wUnit.commandTarget <
      UNIT_ARRIVAL_DISTANCE := by
    rw [hdist]
    unfold UNIT_ARRIVAL_DISTANCE
    norm_num
  have hpeer : v3distance c1wUnit.position peerUnit.position = 1/2 := by
    refine v3distance_eval _ _ (1/2) (by norm_num) ?_
    show ((0:ℝ) - 0) ^ 2 + ((0:ℝ) - 0) ^ 2 + ((1:ℝ)/2 - 0) ^ 2 = (1/2) ^ 2
    norm_num
  have hcol : unitWillCollide rTrivOracle emptyModel [peerUnit] c1wUnit
      (v3normalize (v3sub c1wUnit.commandTarget c1wUnit.position)) = true := by
    refine unitWillCollide_peer rTrivOracle c1wUnit peerUnit _ rfl ?_
    rw [hpeer]
    unfold UNIT_SIZE
    norm_num
  exact ⟨rfl, rfl, hfar, hcol,
    (updateUnit_command_avoidance_keeps_targets rTrivOracle emptyModel [peerUnit]
      1 c1wUnit rngZero rfl rfl hfar hcol).1,
    (updateUnit_command_avoidance_keeps_targets rTrivOracle emptyModel [peerUnit]
      1 c1wUnit rngZero rfl rfl hfar hcol).2.1⟩

/-- Counterexample to C1 as stated: an active WANDERING unit whose tick
takes the avoidance branch (far from its wander target, wander timer not
expired, an active peer within the separation radius) leaves the tick
with a DIFFERENT stored wander target — the avoidance branch of the
wandering case retargets (main.c lines 510-514). -/
theorem updateUnit_wander_avoidance_retargets :
    c1cUnit.active = true ∧ c1cUnit.hasCommand = false ∧
    v3length (v3sub c1cUnit.targetPosition c1cUnit.position) > 1/10 ∧
    unitWillCollide rTrivOracle emptyModel [peerUnit] c1cUnit
      (v3normalize (v3sub c1cUnit.targetPosition c1cUnit.position)) = true ∧
    (updateUnit rTrivOracle emptyModel [peerUnit] (1/10) c1cUnit rngZero).1.targetPosition ≠
      c1cUnit.targetPosition := by
  have hlen : v3length (v3sub c1cUnit.targetPosition c1cUnit.position) = 2 := by
    have h := v3distance_eval c1cUnit.position c1cUnit.targetPosition 2 (by norm_num) ?_
    · exact h
    · show ((0:ℝ) - 0) ^ 2 + ((2:ℝ) - 0) ^ 2 + ((0:ℝ) - 0) ^ 2 = 2 ^ 2
      norm_num
  have h01 : v3length (v3sub c1cUnit.targetPosition c1cUnit.position) > 1/10 := by
    rw [hlen]
    norm_num
  have hpeer : v3distance c1cUnit.position peerUnit.position = 1/2 := by
    refine v3distance_eval _ _ (1/2) (by norm_num) ?_
    show ((0:ℝ) - 0) ^ 2 + ((0:ℝ) - 0) ^ 2 + ((1:ℝ)/2 - 0) ^ 2 = (1/2) ^ 2
    norm_num
  have hcol : unitWillCollide rTrivOracle emptyModel [peerUnit] c1cUnit
      (v3normalize (v3sub c1cUnit.targetPosition c1cUnit.position)) = true := by
    refine unitWillCollide_peer rTrivOracle c1cUnit peerUnit _ rfl ?_
    rw [hpeer]
    unfold UNIT_SIZE
    norm_num
  refine ⟨rfl, rfl, h01, hcol, ?_⟩
  have ht : ¬ c1cUnit.moveTimer - (1/10 : ℝ) ≤ 0 := by
    show ¬ (5:ℝ) - 1/10 ≤ 0
    norm_num
  rw [updateUnit_active rTrivOracle emptyModel [peerUnit] (1/10) c1cUnit rngZero rfl,
      updateUnitMove_wander_ticking rTrivOracle emptyModel [peerUnit] (1/10) c1cUnit
        rngZero rfl ht,
      unitSteer_avoid_wander rTrivOracle emptyModel [peerUnit] (1/10)
        { c1cUnit with moveTimer := c1cUnit.moveTimer - 1/10 } c1cUnit.targetPosition
        rngZero h01 hcol rfl]
  intro heq
  have hy := congrArg Vec3.y heq
  simp only [v3add, v3scale, avoidDirection] at hy
  have : (0:ℝ) + 0 * 3 = 2 := hy
  norm_num at this

/-! ## Helper lemmas: straight-line convergence of a commanded unit -/

/-- Stepping distance s along the normalised direction toward c changes
the distance to c from d to |d - s|. -/
theorem v3distance_after_step (p c : Vec3 ℝ) (s : ℝ)
    (hd : 0 < v3length (v3sub c p)) :
    v3distance (v3add p (v3scale (v3normalize (v3sub c p)) s)) c =
      |v3distance p c - s| := by
  have hne : ¬ v3length (v3sub c p) = 0 := ne_of_gt hd
  unfold v3normalize
  rw [if_neg hne]
  have key : v3sub c (v3add p (v3scale (v3scale (v3sub c p) (1 / v3length (v3sub c p))) s)) =
      v3scale (v3sub c p) (1 - s / v3length (v3sub c p)) := by
    ext <;> (simp [v3sub, v3add, v3scale]; ring)
  unfold v3distance
  rw [key, v3length_scale]
  have h1 : |1 - s / v3length (v3sub c p)| * v3length (v3sub c p) =
      |(1 - s / v3length (v3sub c p)) * v3length (v3sub c p)| := by
    rw [abs_mul, abs_of_pos hd]
  rw [h1]
  congr 1
  field_simp

/-- When the target sits at the same height, the step keeps the height. -/
theorem v3step_y (p c : Vec3 ℝ) (s : ℝ) (hd : v3length (v3sub c p) ≠ 0)
    (hcy : c.y = p.y) :
    (v3add p (v3scale (v3normalize (v3sub c p)) s)).y = p.y := by
  unfold v3normalize
  rw [if_neg hd]
  simp [v3add, v3scale, v3sub, hcy]

/-- One tick of a commanded unit over the empty scene with no peers:
the random stream is untouched, the unit stays active at the default
height with the same command target; if it was at least the arrival
threshold away it keeps the command and closes in by exactly
UNIT_SPEED * dt, and if it was within the threshold the command is
cleared and it stays within the threshold. -/
theorem c5_tick (g : GeomOracle ℝ) (dt : ℝ) (rng : Rng) (u : UnitState)
    (hdt : 0 < dt) (hs : UNIT_SPEED * dt ≤ 2/5)
    (ha : u.active = true) (hc : u.hasCommand = true)
    (hy : u.position.y = UNIT_HEIGHT_OFFSET)
    (hcy : u.commandTarget.y = UNIT_HEIGHT_OFFSET) :
    ∃ u', updateUnit g emptyModel [] dt u rng = (u', rng) ∧
      u'.active = true ∧ u'.position.y = UNIT_HEIGHT_OFFSET ∧
      u'.commandTarget = u.commandTarget ∧
      (1/2 ≤ v3distance u.position u.commandTarget →
        u'.hasCommand = true ∧
        v3distance u'.position u'.commandTarget =
          v3distance u.position u.commandTarget - UNIT_SPEED * dt) ∧
      (v3distance u.position u.commandTarget < 1/2 →
        u'.hasCommand = false ∧
        v3distance u'.position u'.commandTarget < 1/2) := by
  have hs0 : 0 < UNIT_SPEED * dt := by
    unfold UNIT_SPEED
    linarith
  have hd0 : 0 ≤ v3distance u.position u.commandTarget := v3distance_nonneg _ _
  have hde : v3distance u.position u.commandTarget =
      v3length (v3sub u.commandTarget u.position) := rfl
  have hcyp : u.commandTarget.y = u.position.y := by rw [hcy, hy]
  by_cases hnear : v3distance u.position u.commandTarget < 1/2
  · -- arrival tick: the command is cleared, then the unit still steers
    rw [updateUnit_active g emptyModel [] dt u rng ha,
        updateUnitMove_command_near g emptyModel [] dt u rng hc hnear]
    by_cases h01 : v3length (v3sub u.commandTarget u.position) > 1/10
    · have h0 : 0 < v3length (v3sub u.commandTarget u.position) := by linarith
      rw [unitSteer_free g emptyModel [] dt
            { u with hasCommand := false, moveTimer := 0 } u.commandTarget rng h01
            (unitWillCollide_empty g _ _)]
      refine ⟨_, rfl, ha, ?_, rfl, ?_, ?_⟩
      · exact getGroundHeight_empty g _
      · intro hge
        exact absurd hnear (not_lt.mpr hge)
      · intro _
        refine ⟨rfl, ?_⟩
        have hmy : (v3add u.position (v3scale (v3normalize (v3sub u.commandTarget
            u.position)) (UNIT_SPEED * dt))).y = u.position.y :=
          v3step_y u.position u.commandTarget (UNIT_SPEED * dt) (ne_of_gt h0) hcyp
        have hclamp : (⟨(v3add u.position (v3scale (v3normalize (v3sub u.commandTarget
            u.position)) (UNIT_SPEED * dt))).x,
            getGroundHeight g emptyModel (v3add u.position (v3scale (v3normalize
              (v3sub u.commandTarget u.position)) (UNIT_SPEED * dt))),
            (v3add u.position (v3scale (v3normalize (v3sub u.commandTarget
              u.position)) (UNIT_SPEED * dt))).z⟩ : Vec3 ℝ) =
            v3add u.position (v3scale (v3normalize (v3sub u.commandTarget
              u.position)) (UNIT_SPEED * dt)) := by
          ext
          · rfl
          · rw [getGroundHeight_empty, hmy, hy]
          · rfl
        simp only [unitFreeMove]
        rw [hclamp, v3distance_after_step u.position u.commandTarget
              (UNIT_SPEED * dt) h0]
        rw [abs_lt]
        constructor
        · linarith
        · linarith
    · rw [unitSteer_deadband g emptyModel [] dt
            { u with hasCommand := false, moveTimer := 0 } u.commandTarget rng h01]
      have hd10 : v3length (v3sub u.commandTarget u.position) ≤ 1/10 := not_lt.mp h01
      refine ⟨_, rfl, ha, ?_, rfl, ?_, ?_⟩
      · exact getGroundHeight_empty g _
      · intro hge
        exact absurd hnear (not_lt.mpr hge)
      · intro _
        refine ⟨rfl, ?_⟩
        have hclamp : (⟨u.position.x, getGroundHeight g emptyModel u.position,
            u.position.z⟩ : Vec3 ℝ) = u.position := by
          ext
          · rfl
          · rw [getGroundHeight_empty, hy]
          · rfl
        show v3distance (⟨u.position.x, getGroundHeight g emptyModel u.position,
            u.position.z⟩ : Vec3 ℝ) u.commandTarget < 1/2
        rw [hclamp]
        rw [hde]
        linarith
  · -- still far: keep the command and close in by one full step
    have hfar : ¬ v3distance u.position u.commandTarget < UNIT_ARRIVAL_DISTANCE := hnear
    have hdge : 1/2 ≤ v3distance u.position u.commandTarget := not_lt.mp hnear
    have h01 : v3length (v3sub u.commandTarget u.position) > 1/10 := by
      rw [hde] at hdge
      linarith
    have h0 : 0 < v3length (v3sub u.commandTarget u.position) := by linarith
    rw [updateUnit_active g emptyModel [] dt u rng ha,
        updateUnitMove_command_far g emptyModel [] dt u rng hc hfar,
        unitSteer_free g emptyModel [] dt u u.commandTarget rng h01
          (unitWillCollide_empty g _ _)]
    refine ⟨_, rfl, ha, ?_, rfl, ?_, ?_⟩
    · exact getGroundHeight_empty g _
    · intro _
      refine ⟨hc, ?_⟩
      have hmy : (v3add u.position (v3scale (v3normalize (v3sub u.commandTarget
          u.position)) (UNIT_SPEED * dt))).y = u.position.y :=
        v3step_y u.position u.commandTarget (UNIT_SPEED * dt) (ne_of_gt h0) hcyp
      have hclamp : (⟨(v3add u.position (v3scale (v3normalize (v3sub u.commandTarget
          u.position)) (UNIT_SPEED * dt))).x,
          getGroundHeight g emptyModel (v3add u.position (v3scale (v3normalize
            (v3sub u.commandTarget u.position)) (UNIT_SPEED * dt))),
          (v3add u.position (v3scale (v3normalize (v3sub u.commandTarget
            u.position)) (UNIT_SPEED * dt))).z⟩ : Vec3 ℝ) =
          v3add u.position (v3scale (v3normalize (v3sub u.commandTarget
            u.position)) (UNIT_SPEED * dt)) := by
        ext
        · rfl
        · rw [getGroundHeight_empty, hmy, hy]
        · rfl
      simp only [unitFreeMove]
      rw [hclamp, v3distance_after_step u.position u.commandTarget (UNIT_SPEED * dt) h0]
      rw [abs_of_nonneg (by linarith : (0:ℝ) ≤
        v3distance u.position u.commandTarget - UNIT_SPEED * dt)]
    · intro hlt
      exact absurd hlt hnear

theorem runTicks_zero (g : GeomOracle ℝ) (model : ModelData ℝ)
    (others : List UnitState) (dt : ℝ) (s : UnitState × Rng) :
    runTicks g model others dt 0 s = s := rfl

theorem runTicks_succ (g : GeomOracle ℝ) (model : ModelData ℝ)
    (others : List UnitState) (dt : ℝ) (n : Nat) (s : UnitState × Rng) :
    runTicks g model others dt (n + 1) s =
      runTicks g model others dt n (updateUnit g model others dt s.1 s.2) := rfl

/-- Induction core for C5: a commanded unit within 1/2 + k steps of its
target reaches below the threshold with the command cleared within k + 2
ticks. -/
theorem c5_ticks_converge (g : GeomOracle ℝ) (dt : ℝ)
    (hdt : 0 < dt) (hs : UNIT_SPEED * dt ≤ 2/5) :
    ∀ (k : Nat) (u : UnitState) (rng : Rng),
      u.active = true → u.hasCommand = true →
      u.position.y = UNIT_HEIGHT_OFFSET → u.commandTarget.y = UNIT_HEIGHT_OFFSET →
      v3distance u.position u.commandTarget ≤ 1/2 + k * (UNIT_SPEED * dt) →
      ∃ n ≤ k + 2,
        v3distance (runTicks g emptyModel [] dt n (u, rng)).1.position
            (runTicks g emptyModel [] dt n (u, rng)).1.commandTarget < 1/2 ∧
        (runTicks g emptyModel [] dt n (u, rng)).1.hasCommand = false := by
  intro k
  induction k with
  | zero =>
      intro u rng ha hc hy hcy hdist
      have hs0 : 0 < UNIT_SPEED * dt := by
        unfold UNIT_SPEED
        linarith
      have hd12 : v3distance u.position u.commandTarget ≤ 1/2 := by
        simpa using hdist
      obtain ⟨u1, hequ1, ha1, hy1, hct1, hfarimp1, hnearimp1⟩ :=
        c5_tick g dt rng u hdt hs ha hc hy hcy
      by_cases hnear : v3distance u.position u.commandTarget < 1/2
      · obtain ⟨hcmd1, hlt1⟩ := hnearimp1 hnear
        refine ⟨1, by omega, ?_, ?_⟩
        · rw [runTicks_succ, runTicks_zero]
          have : updateUnit g emptyModel [] dt (u, rng).1 (u, rng).2 = (u1, rng) := hequ1
          rw [this]
          exact hlt1
        · rw [runTicks_succ, runTicks_zero]
          have : updateUnit g emptyModel [] dt (u, rng).1 (u, rng).2 = (u1, rng) := hequ1
          rw [this]
          exact hcmd1
      · have hdeq : 1/2 ≤ v3distance u.position u.commandTarget := not_lt.mp hnear
        obtain ⟨hcmd1, hdist1⟩ := hfarimp1 hdeq
        have hcy1 : u1.commandTarget.y = UNIT_HEIGHT_OFFSET := by
          rw [hct1]
          exact hcy
        obtain ⟨u2, hequ2, ha2, hy2, hct2, hfarimp2, hnearimp2⟩ :=
          c5_tick g dt rng u1 hdt hs ha1 hcmd1 hy1 hcy1
        have hnear1 : v3distance u1.position u1.commandTarget < 1/2 := by
          rw [hdist1]
          linarith
        obtain ⟨hcmd2, hlt2⟩ := hnearimp2 hnear1
        refine ⟨2, by omega, ?_, ?_⟩
        · rw [runTicks_succ, runTicks_succ, runTicks_zero]
          have e1 : updateUnit g emptyModel [] dt (u, rng).1 (u, rng).2 = (u1, rng) := hequ1
          rw [e1]
          have e2 : updateUnit g emptyModel [] dt (u1, rng).1 (u1, rng).2 = (u2, rng) := hequ2
          rw [e2]
          exact hlt2
        · rw [runTicks_succ, runTicks_succ, runTicks_zero]
          have e1 : updateUnit g emptyModel [] dt (u, rng).1 (u, rng).2 = (u1, rng) := hequ1
          rw [e1]
          have e2 : updateUnit g emptyModel [] dt (u1, rng).1 (u1, rng).2 = (u2, rng) := hequ2
          rw [e2]
          exact hcmd2
  | succ k ih =>
      intro u rng ha hc hy hcy hdist
      by_cases hle : v3distance u.position u.commandTarget ≤ 1/2 + k * (UNIT_SPEED * dt)
      · obtain ⟨n, hn, h1, h2⟩ := ih u rng ha hc hy hcy hle
        exact ⟨n, by omega, h1, h2⟩
      · push_neg at hle
        have hk0 : (0:ℝ) ≤ (k : ℝ) * (UNIT_SPEED * dt) := by
          have hs0 : 0 < UNIT_SPEED * dt := by
            unfold UNIT_SPEED
            linarith
          positivity
        have hfar : 1/2 ≤ v3distance u.position u.commandTarget := by linarith
        obtain ⟨u1, hequ1, ha1, hy1, hct1, hfarimp1, _⟩ :=
          c5_tick g dt rng u hdt hs ha hc hy hcy
        obtain ⟨hcmd1, hdist1⟩ := hfarimp1 hfar
        have hcy1 : u1.commandTarget.y = UNIT_HEIGHT_OFFSET := by
          rw [hct1]
          exact hcy
        have hdist1le : v3distance u1.position u1.commandTarget ≤
            1/2 + k * (UNIT_SPEED * dt) := by
          rw [hdist1]
          have hcast : ((k + 1 : Nat) : ℝ) = (k : ℝ) + 1 := by push_cast; ring
          rw [hcast] at hdist
          linarith [hdist]
        obtain ⟨n, hn, h1, h2⟩ := ih u1 rng ha1 hcmd1 hy1 hcy1 hdist1le
        refine ⟨n + 1, by omega, ?_, ?_⟩
        · rw [runTicks_succ]
          have e1 : updateUnit g emptyModel [] dt (u, rng).1 (u, rng).2 = (u1, rng) := hequ1
          rw [e1]
          exact h1
        · rw [runTicks_succ]
          have e1 : updateUnit g emptyModel [] dt (u, rng).1 (u, rng).2 = (u1, rng) := hequ1
          rw [e1]
          exact h2

/-- C5: a commanded active unit over a scene with no meshes (hence no
obstacle can be hit) and no other active units, starting on the default
ground height with a command target on that height, converges when
iterated with a fixed small positive time step (UNIT_SPEED * dt no more
than 2/5): within ceil(d0 / (UNIT_SPEED*dt)) + 2 ticks its distance to
the stored command target drops below UNIT_ARRIVAL_DISTANCE and
hasCommand is false. -/
theorem commanded_unit_converges (g : GeomOracle ℝ) (dt : ℝ) (rng : Rng)
    (u : UnitState) (hdt : 0 < dt) (hs : UNIT_SPEED * dt ≤ 2/5)
    (ha : u.active = true) (hc : u.hasCommand = true)
    (hy : u.position.y = UNIT_HEIGHT_OFFSET)
    (hcy : u.commandTarget.y = UNIT_HEIGHT_OFFSET) :
    ∃ n ≤ Nat.ceil (v3distance u.position u.commandTarget / (UNIT_SPEED * dt)) + 2,
      v3distance (runTicks g emptyModel [] dt n (u, rng)).1.position
          (runTicks g emptyModel [] dt n (u, rng)).1.commandTarget <
        UNIT_ARRIVAL_DISTANCE ∧
      (runTicks g emptyModel [] dt n (u, rng)).1.hasCommand = false := by
  have hs0 : 0 < UNIT_SPEED * dt := by
    unfold UNIT_SPEED
    linarith
  have hdk : v3distance u.position u.commandTarget ≤ 1/2 +
      (Nat.ceil (v3distance u.position u.commandTarget / (UNIT_SPEED * dt))) *
        (UNIT_SPEED * dt) := by
    have h1 : v3distance u.position u.commandTarget / (UNIT_SPEED * dt) ≤
        ((Nat.ceil (v3distance u.position u.commandTarget / (UNIT_SPEED * dt))) : ℝ) :=
      Nat.le_ceil _
    rw [div_le_iff₀ hs0] at h1
    linarith
  obtain ⟨n, hn, h1, h2⟩ := c5_ticks_converge g dt hdt hs
    (Nat.ceil (v3distance u.position u.commandTarget / (UNIT_SPEED * dt)))
    u rng ha hc hy hcy hdk
  exact ⟨n, hn, h1, h2⟩

/-- Closed check for C5: a unit 3 away from its command target on the
default ground height, dt = 1/8. -/
theorem commanded_unit_converges_check :
    ∃ n ≤ Nat.ceil (v3distance c5wUnit.position c5wUnit.commandTarget /
        (UNIT_SPEED * (1/8))) + 2,
      v3distance (runTicks rTrivOracle emptyModel [] (1/8) n (c5wUnit, rngZero)).1.position
          (runTicks rTrivOracle emptyModel [] (1/8) n (c5wUnit, rngZero)).1.commandTarget <
        UNIT_ARRIVAL_DISTANCE ∧
      (runTicks rTrivOracle emptyModel [] (1/8) n (c5wUnit, rngZero)).1.hasCommand = false :=
  commanded_unit_converges rTrivOracle (1/8) rngZero c5wUnit (by norm_num)
    (by unfold UNIT_SPEED; norm_num) rfl rfl rfl rfl

/-! ## Helper lemmas: control-group assignment (phase 1 fold) -/

theorem assignClearStep_none (n : Nat) (st : SimState) (a : Nat)
    (h : st.units[a]? = none) : assignClearStep n st a = st := by
  unfold assignClearStep
  simp [h]

theorem assignClearStep_notsel (n : Nat) (st : SimState) (a : Nat) (u : UnitState)
    (h : st.units[a]? = some u)
    (hab : ¬ (u.active = true ∧ u.selected = true)) :
    assignClearStep n st a = st := by
  unfold assignClearStep
  simp [h, hab]

theorem assignClearStep_sel_units (n : Nat) (st : SimState) (a : Nat) (u : UnitState)
    (h : st.units[a]? = some u) (hba : u.active = true) (hbs : u.selected = true) :
    (assignClearStep n st a).units = st.units.set a { u with groupId := n } := by
  unfold assignClearStep
  simp [h, hba, hbs]

theorem assignClearStep_sel_groups (n : Nat) (st : SimState) (a : Nat) (u : UnitState)
    (h : st.units[a]? = some u) (hba : u.active = true) (hbs : u.selected = true) :
    (assignClearStep n st a).groups =
      if 0 < u.groupId then removeFromGroup st.groups u.groupId a else st.groups := by
  unfold assignClearStep
  simp [h, hba, hbs]

/-- Pointwise action of one phase-1 step on the unit array. -/
theorem assignClearStep_get (n : Nat) (st : SimState) (a i : Nat) :
    (assignClearStep n st a).units[i]? =
      (st.units[i]?).map (fun u =>
        if i = a ∧ u.active = true ∧ u.selected = true then { u with groupId := n }
        else u) := by
  cases h : st.units[a]? with
  | none =>
      rw [assignClearStep_none n st a h]
      by_cases hia : i = a
      · subst hia
        rw [h]
        rfl
      · cases st.units[i]? with
        | none => rfl
        | some u => simp [hia]
  | some u =>
      by_cases hb : u.active = true ∧ u.selected = true
      · rw [assignClearStep_sel_units n st a u h hb.1 hb.2]
        by_cases hia : i = a
        · subst hia
          have hlen : i < st.units.length := (List.getElem?_eq_some.mp h).1
          rw [List.getElem?_set_eq_of_lt _ hlen, h]
          simp [hb.1, hb.2]
        · rw [List.getElem?_set_ne (fun he => hia he.symm)]
          cases st.units[i]? with
          | none => rfl
          | some w => simp [hia]
      · rw [assignClearStep_notsel n st a u h hb]
        by_cases hia : i = a
        · subst hia
          rw [h]
          simp [hb]
        · cases st.units[i]? with
          | none => rfl
          | some w => simp [hia]

/-- Pointwise action of the whole phase-1 fold on the unit array. -/
theorem assignFold_get (n : Nat) (L : List Nat) (st : SimState) (i : Nat) :
    (L.foldl (assignClearStep n) st).units[i]? =
      (st.units[i]?).map (fun u =>
        if i ∈ L ∧ u.active = true ∧ u.selected = true then { u with groupId := n }
        else u) := by
  induction L generalizing st with
  | nil =>
      rw [List.foldl_nil]
      cases st.units[i]? with
      | none => rfl
      | some u => simp
  | cons a L ih =>
      rw [List.foldl_cons, ih, assignClearStep_get n st a i, Option.map_map]
      cases st.units[i]? with
      | none => rfl
      | some u =>
          by_cases hia : i = a <;> by_cases hact : u.active = true <;>
            by_cases hsel : u.selected = true <;>
            simp [hia, hact, hsel, List.mem_cons, Function.comp]

theorem assignFold_length (n : Nat) (L : List Nat) (st : SimState) :
    (L.foldl (assignClearStep n) st).units.length = st.units.length := by
  induction L generalizing st with
  | nil => rfl
  | cons a L ih =>
      rw [List.foldl_cons, ih]
      cases h : st.units[a]? with
      | none => rw [assignClearStep_none n st a h]
      | some u =>
          by_cases hb : u.active = true ∧ u.selected = true
          · rw [assignClearStep_sel_units n st a u h hb.1 hb.2, List.length_set]
          · rw [assignClearStep_notsel n st a u h hb]

theorem assignFold_selActive (n : Nat) (L : List Nat) (st : SimState) (i : Nat) :
    selActive (L.foldl (assignClearStep n) st) i = selActive st i := by
  unfold selActive
  rw [assignFold_get]
  cases st.units[i]? with
  | none => rfl
  | some u =>
      by_cases hc : i ∈ L ∧ u.active = true ∧ u.selected = true <;> simp [hc]

theorem assignClearStep_groups_sublist (n : Nat) (st : SimState) (a m : Nat) :
    ((assignClearStep n st a).groups m).unitIndices.Sublist
      ((st.groups m).unitIndices) := by
  cases h : st.units[a]? with
  | none =>
      rw [assignClearStep_none n st a h]
  | some u =>
      by_cases hb : u.active = true ∧ u.selected = true
      · rw [assignClearStep_sel_groups n st a u h hb.1 hb.2]
        by_cases hg : 0 < u.groupId
        · rw [if_pos hg]
          show ((if m = u.groupId then
              { st.groups u.groupId with
                unitIndices := (st.groups u.groupId).unitIndices.erase a }
            else st.groups m).unitIndices).Sublist ((st.groups m).unitIndices)
          by_cases hm : m = u.groupId
          · subst hm
            rw [if_pos rfl]
            exact List.erase_sublist a _
          · rw [if_neg hm]
        · rw [if_neg hg]
      · rw [assignClearStep_notsel n st a u h hb]

theorem assignFold_groups_sublist (n : Nat) (L : List Nat) (st : SimState) (m : Nat) :
    ((L.foldl (assignClearStep n) st).groups m).unitIndices.Sublist
      ((st.groups m).unitIndices) := by
  induction L generalizing st with
  | nil => exact List.Sublist.refl _
  | cons a L ih =>
      rw [List.foldl_cons]
      exact (ih (assignClearStep n st a)).trans (assignClearStep_groups_sublist n st a m)

/-- After its own phase-1 step, a selected active unit sits in no group
membership list (assuming consistent, duplicate-free lists). -/
theorem assignClearStep_self_notmem (n : Nat) (st : SimState) (a : Nat) (u : UnitState)
    (h : st.units[a]? = some u) (hba : u.active = true) (hbs : u.selected = true)
    (hcons : ∀ m i, i ∈ (st.groups m).unitIndices →
      1 ≤ m ∧ ∃ w, st.units[i]? = some w ∧ w.groupId = m)
    (hnd : ∀ m, ((st.groups m).unitIndices).Nodup) :
    ∀ m, a ∉ ((assignClearStep n st a).groups m).unitIndices := by
  intro m hmem
  rw [assignClearStep_sel_groups n st a u h hba hbs] at hmem
  by_cases hg : 0 < u.groupId
  · rw [if_pos hg] at hmem
    simp only [removeFromGroup] at hmem
    by_cases hm : m = u.groupId
    · rw [if_pos hm] at hmem
      exact ((List.Nodup.mem_erase_iff (hnd _)).mp hmem).1 rfl
    · rw [if_neg hm] at hmem
      obtain ⟨_, w, hw, hwg⟩ := hcons m a hmem
      rw [h] at hw
      have huw : u = w := Option.some.inj hw
      exact hm (huw ▸ hwg).symm
  · rw [if_neg hg] at hmem
    obtain ⟨hm1, w, hw, hwg⟩ := hcons m a hmem
    rw [h] at hw
    have huw : u = w := Option.some.inj hw
    have h0 : u.groupId = 0 := Nat.eq_zero_of_not_pos hg
    rw [← huw] at hwg
    omega

/-- One phase-1 step preserves membership-list consistency. -/
theorem assignClearStep_hcons (n : Nat) (st : SimState) (a : Nat) (u : UnitState)
    (h : st.units[a]? = some u) (hba : u.active = true) (hbs : u.selected = true)
    (hcons : ∀ m i, i ∈ (st.groups m).unitIndices →
      1 ≤ m ∧ ∃ w, st.units[i]? = some w ∧ w.groupId = m)
    (hnd : ∀ m, ((st.groups m).unitIndices).Nodup) :
    ∀ m j, j ∈ ((assignClearStep n st a).groups m).unitIndices →
      1 ≤ m ∧ ∃ w, (assignClearStep n st a).units[j]? = some w ∧ w.groupId = m := by
  intro m j hj
  have hj0 : j ∈ (st.groups m).unitIndices :=
    (assignClearStep_groups_sublist n st a m).subset hj
  obtain ⟨hm1, w, hw, hwg⟩ := hcons m j hj0
  refine ⟨hm1, ?_⟩
  have hja : ¬ j = a := by
    intro he
    subst he
    exact assignClearStep_self_notmem n st j u h hba hbs hcons hnd m hj
  refine ⟨w, ?_, hwg⟩
  rw [assignClearStep_get n st a j, hw]
  simp [hja]

/-- The phase-1 fold removes every selected active unit it visits from
every group membership list. -/
theorem assignFold_notmem (n : Nat) (L : List Nat) (st : SimState)
    (hcons : ∀ m i, i ∈ (st.groups m).unitIndices →
      1 ≤ m ∧ ∃ w, st.units[i]? = some w ∧ w.groupId = m)
    (hnd : ∀ m, ((st.groups m).unitIndices).Nodup) :
    ∀ i ∈ L, ∀ u, st.units[i]? = some u → u.active = true → u.selected = true →
      ∀ m, i ∉ ((L.foldl (assignClearStep n) st).groups m).unitIndices := by
  induction L generalizing st with
  | nil =>
      intro i hi
      exact absurd hi (List.not_mem_nil i)
  | cons a L ih =>
      intro i hi u hu hact hsel m
      rw [List.foldl_cons]
      cases ha : st.units[a]? with
      | none =>
          rw [assignClearStep_none n st a ha]
          rcases List.mem_cons.mp hi with rfl | hiL
          · rw [hu] at ha
            exact Option.noConfusion ha
          · exact ih st hcons hnd i hiL u hu hact hsel m
      | some v =>
          by_cases hvb : v.active = true ∧ v.selected = true
          · have hcons2 := assignClearStep_hcons n st a v ha hvb.1 hvb.2 hcons hnd
            have hnd2 : ∀ m2, (((assignClearStep n st a).groups m2).unitIndices).Nodup :=
              fun m2 => (hnd m2).sublist (assignClearStep_groups_sublist n st a m2)
            rcases List.mem_cons.mp hi with rfl | hiL
            · intro hmem
              have hin : i ∈ (((assignClearStep n st i).groups m).unitIndices) :=
                (assignFold_groups_sublist n L (assignClearStep n st i) m).subset hmem
              have huv : u = v := Option.some.inj (hu.symm.trans ha)
              exact assignClearStep_self_notmem n st i v (huv ▸ hu) hvb.1 hvb.2
                hcons hnd m hin
            · have hget : (assignClearStep n st a).units[i]? =
                  some (if i = a ∧ u.active = true ∧ u.selected = true
                    then { u with groupId := n } else u) := by
                rw [assignClearStep_get n st a i, hu]
                rfl
              have hact2 : (if i = a ∧ u.active = true ∧ u.selected = true
                  then { u with groupId := n } else u).active = true := by
                split <;> exact hact
              have hsel2 : (if i = a ∧ u.active = true ∧ u.selected = true
                  then { u with groupId := n } else u).selected = true := by
                split <;> exact hsel
              exact ih (assignClearStep n st a) hcons2 hnd2 i hiL _ hget hact2 hsel2 m
          · rw [assignClearStep_notsel n st a v ha hvb]
            rcases List.mem_cons.mp hi with rfl | hiL
            · exfalso
              have huv : u = v := Option.some.inj (hu.symm.trans ha)
              rw [← huv] at hvb
              exact hvb ⟨hact, hsel⟩
            · exact ih st hcons hnd i hiL u hu hact hsel m

/-! ## Helper lemmas: AssignControlGroup and SelectControlGroup -/

/-- Unfolding AssignControlGroup for an in-range group number. -/
theorem assignControlGroup_eval (n : Nat) (st : SimState)
    (h1 : 1 ≤ n) (h9 : n ≤ 9) :
    assignControlGroup n st =
      { units := ((List.range st.units.length).foldl (assignClearStep n) st).units,
        groups := fun m => if m = n then
            ⟨(List.range ((List.range st.units.length).foldl (assignClearStep n)
                st).units.length).filter
              (fun i => selActive ((List.range st.units.length).foldl
                (assignClearStep n) st) i), true⟩
          else ((List.range st.units.length).foldl (assignClearStep n) st).groups m } := by
  unfold assignControlGroup
  split
  · next hcond =>
      exfalso
      simp only [Bool.or_eq_true, decide_eq_true_eq] at hcond
      omega
  · rfl

theorem assignControlGroup_units_get (n : Nat) (st : SimState) (i : Nat)
    (h1 : 1 ≤ n) (h9 : n ≤ 9) :
    (assignControlGroup n st).units[i]? =
      (st.units[i]?).map (fun u =>
        if u.active = true ∧ u.selected = true then { u with groupId := n } else u) := by
  rw [assignControlGroup_eval n st h1 h9]
  simp only
  rw [assignFold_get]
  cases hi : st.units[i]? with
  | none => rfl
  | some u =>
      have hlen : i < st.units.length := (List.getElem?_eq_some.mp hi).1
      have him : i ∈ List.range st.units.length := List.mem_range.mpr hlen
      simp [him]

theorem assignControlGroup_groups_self (n : Nat) (st : SimState)
    (h1 : 1 ≤ n) (h9 : n ≤ 9) :
    (assignControlGroup n st).groups n =
      ⟨(List.range st.units.length).filter (fun i => selActive st i), true⟩ := by
  rw [assignControlGroup_eval n st h1 h9]
  show (if n = n then
      (⟨(List.range ((List.range st.units.length).foldl (assignClearStep n)
          st).units.length).filter
        (fun i => selActive ((List.range st.units.length).foldl
          (assignClearStep n) st) i), true⟩ : ControlGroupState)
    else ((List.range st.units.length).foldl (assignClearStep n) st).groups n) =
    ⟨(List.range st.units.length).filter (fun i => selActive st i), true⟩
  rw [if_pos rfl, assignFold_length]
  congr 1
  exact List.filter_congr (fun i _ => assignFold_selActive n (List.range st.units.length) st i)

theorem assignControlGroup_groups_other (n m : Nat) (st : SimState)
    (h1 : 1 ≤ n) (h9 : n ≤ 9) (hm : m ≠ n) :
    (assignControlGroup n st).groups m =
      ((List.range st.units.length).foldl (assignClearStep n) st).groups m := by
  rw [assignControlGroup_eval n st h1 h9]
  simp [hm]

/-! ## Helper lemmas: SelectControlGroup -/

/-- The unit-list component of the marking fold. -/
theorem selectFold_fst (L : List Nat) (acc : List UnitState × Vec3 ℝ × Nat) :
    (L.foldl selectMarkStep acc).1 = L.foldl selectMarkUnits acc.1 := by
  induction L generalizing acc with
  | nil => rfl
  | cons a L ih =>
      rw [List.foldl_cons, List.foldl_cons, ih]
      congr 1
      unfold selectMarkStep selectMarkUnits
      cases h : acc.1[a]? with
      | none => simp [h]
      | some u =>
          by_cases hu : u.active = true
          · simp [h, hu]
          · simp [h, hu]

/-- Pointwise action of the marking fold on the unit array. -/
theorem markFold_get (L : List Nat) (us : List UnitState) (i : Nat) :
    (L.foldl selectMarkUnits us)[i]? =
      (us[i]?).map (fun u =>
        if i ∈ L ∧ u.active = true then { u with selected := true } else u) := by
  induction L generalizing us with
  | nil =>
      rw [List.foldl_nil]
      cases us[i]? with
      | none => rfl
      | some u => simp
  | cons a L ih =>
      rw [List.foldl_cons, ih]
      have hstep : (selectMarkUnits us a)[i]? =
          (us[i]?).map (fun u =>
            if i = a ∧ u.active = true then { u with selected := true } else u) := by
        unfold selectMarkUnits
        cases h : us[a]? with
        | none =>
            simp only [h]
            by_cases hia : i = a
            · subst hia
              rw [h]
              rfl
            · cases us[i]? with
              | none => rfl
              | some u => simp [hia]
        | some u =>
            simp only [h]
            by_cases hu : u.active = true
            · rw [if_pos hu]
              by_cases hia : i = a
              · subst hia
                have hlen : i < us.length := (List.getElem?_eq_some.mp h).1
                rw [List.getElem?_set_eq_of_lt _ hlen, h]
                simp [hu]
              · rw [List.getElem?_set_ne (fun he => hia he.symm)]
                cases us[i]? with
                | none => rfl
                | some w => simp [hia]
            · rw [if_neg hu]
              by_cases hia : i = a
              · subst hia
                rw [h]
                simp [hu]
              · cases us[i]? with
                | none => rfl
                | some w => simp [hia]
      rw [hstep, Option.map_map]
      cases us[i]? with
      | none => rfl
      | some u =>
          by_cases hia : i = a <;> by_cases hact : u.active = true <;>
            by_cases him : i ∈ L <;>
            simp [hia, hact, him, List.mem_cons, Function.comp]

/-- Unfolding SelectControlGroup's resulting state for an in-range,
active, nonempty group. -/
theorem selectControlGroup_state (n : Nat) (st : SimState)
    (h1 : 1 ≤ n) (h9 : n ≤ 9)
    (ha : (st.groups n).active = true)
    (hne : (st.groups n).unitIndices.length ≠ 0) :
    (selectControlGroup n st).2 =
      { units := (selectGroupScan n st).1, groups := st.groups } := by
  unfold selectControlGroup
  rw [if_neg (by simp only [Bool.or_eq_true, decide_eq_true_eq]; omega),
      if_neg (by simp [ha, hne])]
  by_cases hc : 0 < (selectGroupScan n st).2.2
  · rw [if_pos hc]
  · rw [if_neg hc]

/-- Pointwise result of SelectControlGroup on the unit array: everything
is deselected, then exactly the active members of the group list are
selected. -/
theorem selectControlGroup_units_get (n : Nat) (st : SimState) (i : Nat)
    (h1 : 1 ≤ n) (h9 : n ≤ 9)
    (ha : (st.groups n).active = true)
    (hne : (st.groups n).unitIndices.length ≠ 0) :
    (selectControlGroup n st).2.units[i]? =
      (st.units[i]?).map (fun u =>
        if i ∈ (st.groups n).unitIndices ∧ u.active = true
        then { u with selected := true } else { u with selected := false }) := by
  rw [selectControlGroup_state n st h1 h9 ha hne]
  show (selectGroupScan n st).1[i]? = _
  unfold selectGroupScan
  rw [selectFold_fst, markFold_get, List.getElem?_map]
  cases st.units[i]? with
  | none => rfl
  | some u =>
      by_cases hm : i ∈ (st.groups n).unitIndices <;>
        by_cases hact : u.active = true <;>
        simp [hm, hact]

/-! ## Claim theorems: control groups -/

/-- C2 (amended): for an in-range group number G and consistent,
duplicate-free membership lists, AssignControlGroup(G) stamps every
selected active unit with group id G, REBUILDS G's membership list to be
exactly the currently selected active slot indices (so prior members of
G that are not currently selected are dropped from the list, contrary to
the original claim), marks G active, and removes every selected active
unit from every other group's membership list (with compaction). -/
theorem assignControlGroup_spec (n : Nat) (st : SimState)
    (h1 : 1 ≤ n) (h9 : n ≤ 9)
    (hcons : ∀ m i, i ∈ (st.groups m).unitIndices →
      1 ≤ m ∧ ∃ w, st.units[i]? = some w ∧ w.groupId = m)
    (hnd : ∀ m, ((st.groups m).unitIndices).Nodup) :
    ((assignControlGroup n st).groups n).unitIndices =
      (List.range st.units.length).filter (fun i => selActive st i) ∧
    ((assignControlGroup n st).groups n).active = true ∧
    (∀ (i : Nat) (u : UnitState), st.units[i]? = some u → u.active = true →
      u.selected = true →
      (assignControlGroup n st).units[i]? = some { u with groupId := n } ∧
      i ∈ ((assignControlGroup n st).groups n).unitIndices) ∧
    (∀ m, m ≠ n → ∀ (i : Nat) (u : UnitState), st.units[i]? = some u →
      u.active = true →
      u.selected = true → i ∉ ((assignControlGroup n st).groups m).unitIndices) := by
  refine ⟨?_, ?_, ?_, ?_⟩
  · rw [assignControlGroup_groups_self n st h1 h9]
  · rw [assignControlGroup_groups_self n st h1 h9]
  · intro i u hu hact hsel
    constructor
    · rw [assignControlGroup_units_get n st i h1 h9, hu]
      simp [hact, hsel]
    · rw [assignControlGroup_groups_self n st h1 h9]
      show i ∈ (List.range st.units.length).filter (fun i => selActive st i)
      rw [List.mem_filter]
      refine ⟨List.mem_range.mpr (List.getElem?_eq_some.mp hu).1, ?_⟩
      unfold selActive
      rw [hu]
      simp [hact, hsel]
  · intro m hm i u hu hact hsel
    rw [assignControlGroup_groups_other n m st h1 h9 hm]
    exact assignFold_notmem n (List.range st.units.length) st hcons hnd i
      (List.mem_range.mpr (List.getElem?_eq_some.mp hu).1) u hu hact hsel m

/-- Counterexample to C2 as stated: slot 0 is an active but unselected
member of group 1; after AssignControlGroup(1) with only slot 1
selected, slot 0 is gone from group 1's membership list — the list is
rebuilt from the current selection, not appended to. -/
theorem assignControlGroup_drops_unselected_members :
    0 ∈ (c2state.groups 1).unitIndices ∧
    selActive c2state 0 = false ∧
    (c2state.units[0]?).map (fun u => u.active) = some true ∧
    ((assignControlGroup 1 c2state).groups 1).unitIndices = [1] ∧
    0 ∉ ((assignControlGroup 1 c2state).groups 1).unitIndices := by
  refine ⟨?_, rfl, rfl, ?_, ?_⟩
  · show (0 : Nat) ∈ [0]
    simp
  · rfl
  · show (0 : Nat) ∉ ((assignControlGroup 1 c2state).groups 1).unitIndices
    have h : ((assignControlGroup 1 c2state).groups 1).unitIndices = [1] := rfl
    rw [h]
    simp

/-- Closed check for C2 (amended) at the two-unit state: group 1's list
is rebuilt to exactly the selected active slots. -/
theorem assignControlGroup_spec_check :
    ((assignControlGroup 1 c2state).groups 1).unitIndices =
      (List.range c2state.units.length).filter (fun i => selActive c2state i) := by
  refine (assignControlGroup_spec 1 c2state (by decide) (by decide) ?_ ?_).1
  · intro m i hmem
    by_cases hm : m = 1
    · subst hm
      have h0 : (c2state.groups 1).unitIndices = [0] := rfl
      rw [h0] at hmem
      have : i = 0 := by simpa using hmem
      subst this
      exact ⟨le_refl 1, ⟨{ baseUnit with groupId := 1 }, rfl, rfl⟩⟩
    · exfalso
      have h0 : (c2state.groups m).unitIndices = [] := by
        show (if m = 1 then (⟨[0], true⟩ : ControlGroupState) else emptyGroup).unitIndices = []
        rw [if_neg hm]
        rfl
      rw [h0] at hmem
      exact List.not_mem_nil i hmem
  · intro m
    by_cases hm : m = 1
    · subst hm
      have h0 : (c2state.groups 1).unitIndices = [0] := rfl
      rw [h0]
      simp
    · have h0 : (c2state.groups m).unitIndices = [] := by
        show (if m = 1 then (⟨[0], true⟩ : ControlGroupState) else emptyGroup).unitIndices = []
        rw [if_neg hm]
        rfl
      rw [h0]
      exact List.nodup_nil

/-- C6: AssignGroup then SelectGroup on the same in-range number, with
nothing changed in between and at least one selected active unit,
reselects exactly the units that were selected and active at assignment
time: afterwards every unit's selected flag equals (active && selected)
at assignment time. -/
theorem assign_then_select_reselects (n : Nat) (st : SimState)
    (h1 : 1 ≤ n) (h9 : n ≤ 9)
    (hsel : ∃ (i : Nat) (u : UnitState), st.units[i]? = some u ∧
      u.active = true ∧ u.selected = true) :
    ∀ (i : Nat) (u : UnitState), st.units[i]? = some u →
      ∃ u2, (selectControlGroup n (assignControlGroup n st)).2.units[i]? = some u2 ∧
        u2.selected = (u.active && u.selected) := by
  have hg := assignControlGroup_groups_self n st h1 h9
  have hact : ((assignControlGroup n st).groups n).active = true := by rw [hg]
  have hLkey : ((assignControlGroup n st).groups n).unitIndices =
      (List.range st.units.length).filter (fun i => selActive st i) := by rw [hg]
  have hne : ((assignControlGroup n st).groups n).unitIndices.length ≠ 0 := by
    rw [hLkey]
    obtain ⟨i0, u0, hu0, hact0, hsel0⟩ := hsel
    intro hlen
    have hmem : i0 ∈ (List.range st.units.length).filter (fun i => selActive st i) := by
      rw [List.mem_filter]
      refine ⟨List.mem_range.mpr (List.getElem?_eq_some.mp hu0).1, ?_⟩
      unfold selActive
      rw [hu0]
      simp [hact0, hsel0]
    rw [List.length_eq_zero] at hlen
    rw [hlen] at hmem
    exact List.not_mem_nil i0 hmem
  intro i u hu
  have hu1 : (assignControlGroup n st).units[i]? =
      some (if u.active = true ∧ u.selected = true then { u with groupId := n } else u) := by
    rw [assignControlGroup_units_get n st i h1 h9, hu]
    rfl
  rw [selectControlGroup_units_get n (assignControlGroup n st) i h1 h9 hact hne, hu1]
  have hmem : (i ∈ ((assignControlGroup n st).groups n).unitIndices) ↔
      (u.active = true ∧ u.selected = true) := by
    rw [hLkey, List.mem_filter]
    constructor
    · rintro ⟨_, hsa⟩
      unfold selActive at hsa
      rw [hu] at hsa
      simpa using hsa
    · rintro ⟨hA, hS⟩
      refine ⟨List.mem_range.mpr (List.getElem?_eq_some.mp hu).1, ?_⟩
      unfold selActive
      rw [hu]
      simp [hA, hS]
  by_cases hcase : u.active = true ∧ u.selected = true
  · have him := hmem.mpr hcase
    refine ⟨_, rfl, ?_⟩
    simp [him, hcase, hcase.1, hcase.2]
  · have him : ¬ i ∈ ((assignControlGroup n st).groups n).unitIndices :=
      fun hmm2 => hcase (hmem.mp hmm2)
    refine ⟨_, rfl, ?_⟩
    simp only [if_neg hcase, if_neg (by exact fun hx => him hx.1 : ¬ (i ∈ ((assignControlGroup n st).groups n).unitIndices ∧ u.active = true))]
    cases hA : u.active <;> cases hS : u.selected <;> simp_all

/-- Closed check for C6: slot 1 of the two-unit state is selected and
active; after assigning to group 3 and reselecting group 3 it is
selected again. -/
theorem assign_then_select_reselects_check :
    ∃ u2, (selectControlGroup 3 (assignControlGroup 3 c2state)).2.units[1]? = some u2 ∧
      u2.selected = (({ baseUnit with selected := true } : UnitState).active &&
        ({ baseUnit with selected := true } : UnitState).selected) :=
  assign_then_select_reselects 3 c2state (by decide) (by decide)
    ⟨1, { baseUnit with selected := true }, rfl, rfl, rfl⟩ 1
    { baseUnit with selected := true } rfl

end GltfViewer
